import Mathlib

/-!
# OPC UA binary codec for the GetEndpoints service

Shallow embedding of `src/ua/libuamappings/src/binary_endpoints.cpp`.

* An output stream is modelled by the list of bytes a `Serialize` call appends to it:
  `*this << a; *this << b;` becomes `Serialize a ++ Serialize b`.
* An input stream is modelled by the list of bytes still unread.  A `Deserialize`
  call returns either the decoded value together with the bytes left unread, or
  the error the stream raised (a C++ exception in the source).
* `RawSize` returns a natural number (`std::size_t`, no wrap-around modelled).
* Machine integers are natural numbers; a cast to `uint32_t` is `% 2 ^ 32`.

The stream primitives (`<<` and `>>` on integers, strings and containers) live in
`binary_serialization.h` and `stream.h`, which are outside the translated file; they
are modelled from the specification and marked as such.  The string reader has two
models: `Deserialize_string` follows the contract of section 4.2 (every count is a
length) and `Deserialize_string_section6` adds the null reading of the all-ones count
(section 6).  They return the same result on every input whose count is not the
all-ones pattern; the decode-then-encode property, where the difference shows, is stated
on the second.

The record types are declared in `opc/ua/protocol/endpoints.h` and `types.h`, also
outside the translated file.  Their field names are the ones the source uses; their
field types follow section 3 of the specification: a string or URI is a
`std::string` (a list of bytes), the server certificate is a byte blob, an enumeration
is the 32-bit code it carries.
-/

namespace OpcUa
namespace Binary

/-! ## Streams -/

/-- One octet on the wire. -/
abbrev Byte := UInt8

/-- Errors of the stream collaborator (specification, section 7). -/
inductive StreamError where
  | StreamUnderrun
  | StreamWriteFailure
  deriving DecidableEq, Repr

/-- A decoder consumes a prefix of the unread bytes and returns the value together with
the bytes left unread, or fails. -/
abbrev Decoder (α : Type) := List Byte → Except StreamError (α × List Byte)

instance instDecidableEqExcept {ε α : Type} [DecidableEq ε] [DecidableEq α] :
    DecidableEq (Except ε α)
  | .ok a, .ok b => if h : a = b then isTrue (by rw [h]) else isFalse (by
      intro h2; cases h2; exact h rfl)
  | .error a, .error b => if h : a = b then isTrue (by rw [h]) else isFalse (by
      intro h2; cases h2; exact h rfl)
  | .ok _, .error _ => isFalse (by intro h; cases h)
  | .error _, .ok _ => isFalse (by intro h; cases h)

/-- A size / encode / decode triple of a type whose codec is defined outside the
translated file (message header, type discriminant). -/
structure Codec (α : Type) where
  RawSize : α → Nat
  Serialize : α → List Byte
  Deserialize : Decoder α

/-- ASCII text as the bytes of a `std::string`. -/
def ofString (s : String) : List Byte :=
  s.toList.map (fun c => UInt8.ofNat c.toNat)

/-! ## Stream primitives (modelled from the specification) -/

/-- Modelled from the spec: the stream's fixed-width integer write (section 6, "all
integers little-endian"); `encodeLE w v` is the `w` low-order bytes of `v`, least
significant first.  The primitive itself is in `stream.h`, outside the translated file. -/
def encodeLE : Nat → Nat → List Byte
  | 0, _ => []
  | w + 1, v => UInt8.ofNat (v % 256) :: encodeLE w (v / 256)

/-- Modelled from the spec: value of a little-endian byte sequence (section 6). -/
def decodeLE : List Byte → Nat
  | [] => 0
  | b :: bs => b.toNat + 256 * decodeLE bs

/-- Modelled from the spec: the stream's fixed-width integer read; fails with
`StreamUnderrun` when fewer than `w` bytes remain (sections 4.1 and 7), otherwise
consumes exactly `w` bytes. -/
def readLE (w : Nat) : Decoder Nat := fun bs =>
  if bs.length < w then .error .StreamUnderrun
  else .ok (decodeLE (bs.take w), bs.drop w)

/-- Modelled from the spec: `RawSize(uint32_t)`, a 4-byte field. -/
def RawSize_uint32 (_v : Nat) : Nat := 4

/-- Modelled from the spec: `*this << uint32_t`, a 4-byte little-endian field. -/
def Serialize_uint32 (v : Nat) : List Byte := encodeLE 4 (v % 2 ^ 32)

/-- Modelled from the spec: `*this >> uint32_t`. -/
def Deserialize_uint32 : Decoder Nat := readLE 4

/-- Modelled from the spec: `RawSize(std::string)` of the variable-length codec
(section 4.2): `size(s) -> 4 + byte_length(s)`. -/
def RawSize_string (s : List Byte) : Nat := 4 + s.length

/-- Modelled from the spec: `*this << std::string` (section 4.2): "a 4-byte count
followed by raw bytes".  Byte blobs (`ServerCertificate`) use the same codec
(section 6, "String/URI/ByteString"). -/
def Serialize_string (s : List Byte) : List Byte :=
  Serialize_uint32 s.length ++ s

/-- Modelled from the spec: `*this >> std::string` by the contract of section 4.2:
"reads the count then that many bytes"; `StreamUnderrun` when the count or the bytes
cannot be read.  Every count is a length here.  The reader that treats the all-ones
count as the null value of section 6 is `Deserialize_string_section6`; the two readers
return the same result on every input whose count is not the all-ones pattern
(`Deserialize_string_section6_eq`). -/
def Deserialize_string : Decoder (List Byte) := fun bs =>
  match Deserialize_uint32 bs with
  | .error e => .error e
  | .ok (n, rest) =>
    if rest.length < n then .error .StreamUnderrun
    else .ok (rest.take n, rest.drop n)

/-- Modelled from the spec: the generic array size of section 4.3,
`size(seq) -> 4 + sum(size(e) for e in seq)`, used for the `std::vector<std::string>`
fields whose `RawSize` is outside the translated file. -/
def RawSizeContainer {α : Type} (size : α → Nat) (c : List α) : Nat :=
  4 + (c.map size).sum

/-- Modelled from the spec: `SerializeContainer` of `binary_serialization.h` (section
4.3): "writes the 4-byte count (`len(seq)` as a 32-bit integer ...), then encodes each
element in sequence order". -/
def SerializeContainer {α : Type} (ser : α → List Byte) (c : List α) : List Byte :=
  Serialize_uint32 c.length ++ (c.map ser).flatten

/-- Decode `n` elements one after the other; the first failure aborts. -/
def readElements {α : Type} (dec : Decoder α) : Nat → Decoder (List α)
  | 0, bs => .ok ([], bs)
  | n + 1, bs =>
    match dec bs with
    | .error e => .error e
    | .ok (x, rest) =>
      match readElements dec n rest with
      | .error e => .error e
      | .ok (xs, rest2) => .ok (x :: xs, rest2)

/-- Modelled from the spec: `DeserializeContainer` of `binary_serialization.h` (section
4.3): "reads the 4-byte count, then decodes that many elements in order into a newly
constructed sequence"; an element failure is propagated. -/
def DeserializeContainer {α : Type} (dec : Decoder α) : Decoder (List α) := fun bs =>
  match Deserialize_uint32 bs with
  | .error e => .error e
  | .ok (n, rest) => readElements dec n rest

/-- Modelled from the spec: `RawSize(std::vector<std::string>)`. -/
def RawSize_vector_string (v : List (List Byte)) : Nat :=
  RawSizeContainer RawSize_string v

/-- Modelled from the spec: `*this << std::vector<std::string>`, the generic array path. -/
def Serialize_vector_string (v : List (List Byte)) : List Byte :=
  SerializeContainer Serialize_string v

/-- Modelled from the spec: `*this >> std::vector<std::string>`. -/
def Deserialize_vector_string : Decoder (List (List Byte)) :=
  DeserializeContainer Deserialize_string

/-! ## EndpointsFilter  (source lines 41-77) -/

/-- Modelled from the spec: the declaration of `EndpointsFilter` (section 3): the URL to
filter by and two ordered sequences of strings. -/
structure EndpointsFilter where
  EndpointURL : List Byte
  LocaleIDs : List (List Byte)
  ProfileUries : List (List Byte)
  deriving DecidableEq, Repr

def RawSize_EndpointsFilter (filter : EndpointsFilter) : Nat :=
  RawSize_string filter.EndpointURL + RawSize_vector_string filter.LocaleIDs +
    RawSize_vector_string filter.ProfileUries

def Serialize_EndpointsFilter (filter : EndpointsFilter) : List Byte :=
  Serialize_string filter.EndpointURL ++
  (if filter.LocaleIDs.isEmpty then Serialize_uint32 0
   else Serialize_vector_string filter.LocaleIDs) ++
  (if filter.ProfileUries.isEmpty then Serialize_uint32 0
   else Serialize_vector_string filter.ProfileUries)

def Deserialize_EndpointsFilter : Decoder EndpointsFilter := fun bs =>
  match Deserialize_string bs with
  | .error e => .error e
  | .ok (url, bs1) =>
    match Deserialize_vector_string bs1 with
    | .error e => .error e
    | .ok (locales, bs2) =>
      match Deserialize_vector_string bs2 with
      | .error e => .error e
      | .ok (profiles, bs3) =>
        .ok (⟨url, locales, profiles⟩, bs3)

/-- The single generic path the specification asks implementers to write (section 4.3,
edge-case policy): length-prefixed URL, then the generic array encoding of both
sequences, with no empty-sequence branch. -/
def Serialize_EndpointsFilter_generic (filter : EndpointsFilter) : List Byte :=
  Serialize_string filter.EndpointURL ++
  SerializeContainer Serialize_string filter.LocaleIDs ++
  SerializeContainer Serialize_string filter.ProfileUries

/-! ## The null pattern of the string layer (specification, section 6)

Section 6 gives a string count three readings: the all-ones pattern is a null (absent)
value, 0 is the empty string, any other `n` is followed by `n` raw bytes.  A
`std::string` has no null value, so a null string reaches the record as the empty
string.  Array counts have no null reading (section 4.3). -/

/-- Modelled from the spec: the all-ones pattern of a 4-byte count (section 6). -/
def nullCount : Nat := 4294967295

/-- Apply a function to the value a decoder returns. -/
def mapDecoder {α β : Type} (g : α → β) (dec : Decoder α) : Decoder β := fun bs =>
  match dec bs with
  | .error e => .error e
  | .ok (x, rest) => .ok (g x, rest)

/-- Modelled from the spec: the string reader of the stream with the three readings of
section 6: "count = all-ones pattern conventionally denotes a null/absent value at the
stream-collaborator level; count = 0 denotes empty; count > 0 denotes `n` raw bytes
follow".  `none` is the null value; no byte is read after a null count. -/
def Deserialize_nullable_string : Decoder (Option (List Byte)) := fun bs =>
  match Deserialize_uint32 bs with
  | .error e => .error e
  | .ok (n, rest) =>
    if n = nullCount then .ok (none, rest)
    else if rest.length < n then .error .StreamUnderrun
    else .ok (some (rest.take n), rest.drop n)

/-- Modelled from the spec: `*this >> std::string` over the reader of section 6: a null
string is delivered as the empty `std::string`. -/
def Deserialize_string_section6 : Decoder (List Byte) :=
  mapDecoder (fun o => o.getD []) Deserialize_nullable_string

/-- `IStream::Deserialize<EndpointsFilter>` (source lines 71-77) with the string reader
of the stream as a parameter: the URL is read by it, and both sequences by the generic
array reader over it. -/
def Deserialize_EndpointsFilter_with (readString : Decoder (List Byte)) :
    Decoder EndpointsFilter := fun bs =>
  match readString bs with
  | .error e => .error e
  | .ok (url, bs1) =>
    match DeserializeContainer readString bs1 with
    | .error e => .error e
    | .ok (locales, bs2) =>
      match DeserializeContainer readString bs2 with
      | .error e => .error e
      | .ok (profiles, bs3) =>
        .ok (⟨url, locales, profiles⟩, bs3)

/-- `IStream::Deserialize<EndpointsFilter>` over the string reader of section 6. -/
def Deserialize_EndpointsFilter_section6 : Decoder EndpointsFilter :=
  Deserialize_EndpointsFilter_with Deserialize_string_section6

/-- Modelled from the spec: the declaration of `GetEndpointsRequest` (section 3): type
discriminant of type `T`, header of type `H`, and the filter as payload. -/
structure GetEndpointsRequest (T H : Type) where
  TypeID : T
  Header : H
  Filter : EndpointsFilter
  deriving DecidableEq, Repr

def RawSize_GetEndpointsRequest {T H : Type} (tid : Codec T) (hdr : Codec H)
    (request : GetEndpointsRequest T H) : Nat :=
  tid.RawSize request.TypeID + hdr.RawSize request.Header +
    RawSize_EndpointsFilter request.Filter

def Serialize_GetEndpointsRequest {T H : Type} (tid : Codec T) (hdr : Codec H)
    (request : GetEndpointsRequest T H) : List Byte :=
  tid.Serialize request.TypeID ++ hdr.Serialize request.Header ++
    Serialize_EndpointsFilter request.Filter

def Deserialize_GetEndpointsRequest {T H : Type} (tid : Codec T) (hdr : Codec H) :
    Decoder (GetEndpointsRequest T H) := fun bs =>
  match tid.Deserialize bs with
  | .error e => .error e
  | .ok (typeId, bs1) =>
    match hdr.Deserialize bs1 with
    | .error e => .error e
    | .ok (header, bs2) =>
      match Deserialize_EndpointsFilter bs2 with
      | .error e => .error e
      | .ok (filter, bs3) => .ok (⟨typeId, header, filter⟩, bs3)

/-! ## ApplicationType and UserIdentifyTokenType  (source lines 110-152)

An enumeration value is the integer code it carries. -/

/-- Modelled from the spec: the enumeration `ApplicationType` (section 3, EnumValue),
represented by its integer code. -/
abbrev ApplicationType := Nat

def RawSize_ApplicationType (_type : ApplicationType) : Nat := 4

def Serialize_ApplicationType (type : ApplicationType) : List Byte :=
  Serialize_uint32 (type % 2 ^ 32)

def Deserialize_ApplicationType : Decoder ApplicationType := fun bs =>
  match Deserialize_uint32 bs with
  | .error e => .error e
  | .ok (tmp, rest) => .ok (tmp, rest)

/-- Modelled from the spec: the enumeration `UserIdentifyTokenType` (section 3,
EnumValue), represented by its integer code. -/
abbrev UserIdentifyTokenType := Nat

def RawSize_UserIdentifyTokenType (_type : UserIdentifyTokenType) : Nat := 4

def Serialize_UserIdentifyTokenType (type : UserIdentifyTokenType) : List Byte :=
  Serialize_uint32 (type % 2 ^ 32)

def Deserialize_UserIdentifyTokenType : Decoder UserIdentifyTokenType := fun bs =>
  match Deserialize_uint32 bs with
  | .error e => .error e
  | .ok (tmp, rest) => .ok (tmp, rest)

/-- Modelled from the spec: the security mode enumeration of `EndpointDescription`
(section 3, EnumValue), represented by its integer code. -/
abbrev MessageSecurityMode := Nat

/-- Modelled from the spec: `RawSize(MessageSecurityMode)`, the scalar codec of section
4.1 (`size(v) -> 4`); the C++ specialisation is outside the translated file. -/
def RawSize_MessageSecurityMode (_mode : MessageSecurityMode) : Nat := 4

/-- Modelled from the spec: `*this << MessageSecurityMode`, the scalar codec of section
4.1: the underlying integer as a 4-byte little-endian field. -/
def Serialize_MessageSecurityMode (mode : MessageSecurityMode) : List Byte :=
  Serialize_uint32 (mode % 2 ^ 32)

/-- Modelled from the spec: `*this >> MessageSecurityMode`, the scalar codec of section
4.1: reads 4 bytes, no range check. -/
def Deserialize_MessageSecurityMode : Decoder MessageSecurityMode := fun bs =>
  match Deserialize_uint32 bs with
  | .error e => .error e
  | .ok (tmp, rest) => .ok (tmp, rest)

/-! ## UserTokenPolicy  (source lines 159-208) -/

/-- Modelled from the spec: the declaration of `UserTokenPolicy` (section 3,
TokenPolicy). -/
structure UserTokenPolicy where
  PolicyID : List Byte
  TokenType : UserIdentifyTokenType
  IssuedTokenType : List Byte
  IssuerEndpointURL : List Byte
  SecurityPolicyURI : List Byte
  deriving DecidableEq, Repr

def RawSize_UserTokenPolicy (policy : UserTokenPolicy) : Nat :=
  RawSize_string policy.PolicyID +
  RawSize_UserIdentifyTokenType policy.TokenType +
  RawSize_string policy.IssuedTokenType +
  RawSize_string policy.IssuerEndpointURL +
  RawSize_string policy.SecurityPolicyURI

/-- The `std::for_each` loop of the source: `totalSize` starts at the header size 4 and
every element adds its `RawSize`. -/
def RawSize_vector_UserTokenPolicy (vec : List UserTokenPolicy) : Nat :=
  vec.foldl (fun totalSize policy => totalSize + RawSize_UserTokenPolicy policy) 4

def Serialize_UserTokenPolicy (policy : UserTokenPolicy) : List Byte :=
  Serialize_string policy.PolicyID ++
  Serialize_UserIdentifyTokenType policy.TokenType ++
  Serialize_string policy.IssuedTokenType ++
  Serialize_string policy.IssuerEndpointURL ++
  Serialize_string policy.SecurityPolicyURI

def Deserialize_UserTokenPolicy : Decoder UserTokenPolicy := fun bs =>
  match Deserialize_string bs with
  | .error e => .error e
  | .ok (policyID, bs1) =>
    match Deserialize_UserIdentifyTokenType bs1 with
    | .error e => .error e
    | .ok (tokenType, bs2) =>
      match Deserialize_string bs2 with
      | .error e => .error e
      | .ok (issuedTokenType, bs3) =>
        match Deserialize_string bs3 with
        | .error e => .error e
        | .ok (issuerEndpointURL, bs4) =>
          match Deserialize_string bs4 with
          | .error e => .error e
          | .ok (securityPolicyURI, bs5) =>
            .ok (⟨policyID, tokenType, issuedTokenType, issuerEndpointURL,
                  securityPolicyURI⟩, bs5)

def Serialize_vector_UserTokenPolicy (vec : List UserTokenPolicy) : List Byte :=
  SerializeContainer Serialize_UserTokenPolicy vec

def Deserialize_vector_UserTokenPolicy : Decoder (List UserTokenPolicy) :=
  DeserializeContainer Deserialize_UserTokenPolicy

/-! ## ApplicationDescription  (source lines 216-262) -/

/-- Modelled from the spec: the declaration of `ApplicationDescription` (section 3). -/
structure ApplicationDescription where
  URI : List Byte
  ProductURI : List Byte
  Name : List Byte
  /-- The field `Type` of the source (a reserved word here). -/
  Type_ : ApplicationType
  GatewayServerURI : List Byte
  DiscoveryProfileURI : List Byte
  DiscoveryURLs : List (List Byte)
  deriving DecidableEq, Repr

def RawSize_ApplicationDescription (desc : ApplicationDescription) : Nat :=
  RawSize_string desc.URI +
  RawSize_string desc.ProductURI +
  RawSize_string desc.Name +
  RawSize_ApplicationType desc.Type_ +
  RawSize_string desc.GatewayServerURI +
  RawSize_string desc.DiscoveryProfileURI +
  RawSize_vector_string desc.DiscoveryURLs

def Serialize_ApplicationDescription (desc : ApplicationDescription) : List Byte :=
  Serialize_string desc.URI ++
  Serialize_string desc.ProductURI ++
  Serialize_string desc.Name ++
  Serialize_ApplicationType desc.Type_ ++
  Serialize_string desc.GatewayServerURI ++
  Serialize_string desc.DiscoveryProfileURI ++
  Serialize_vector_string desc.DiscoveryURLs

def Deserialize_ApplicationDescription : Decoder ApplicationDescription := fun bs =>
  match Deserialize_string bs with
  | .error e => .error e
  | .ok (uri, bs1) =>
    match Deserialize_string bs1 with
    | .error e => .error e
    | .ok (productURI, bs2) =>
      match Deserialize_string bs2 with
      | .error e => .error e
      | .ok (name, bs3) =>
        match Deserialize_ApplicationType bs3 with
        | .error e => .error e
        | .ok (type, bs4) =>
          match Deserialize_string bs4 with
          | .error e => .error e
          | .ok (gatewayServerURI, bs5) =>
            match Deserialize_string bs5 with
            | .error e => .error e
            | .ok (discoveryProfileURI, bs6) =>
              match Deserialize_vector_string bs6 with
              | .error e => .error e
              | .ok (discoveryURLs, bs7) =>
                .ok (⟨uri, productURI, name, type, gatewayServerURI,
                      discoveryProfileURI, discoveryURLs⟩, bs7)

def Serialize_vector_ApplicationDescription (vec : List ApplicationDescription) :
    List Byte :=
  SerializeContainer Serialize_ApplicationDescription vec

def Deserialize_vector_ApplicationDescription : Decoder (List ApplicationDescription) :=
  DeserializeContainer Deserialize_ApplicationDescription

/-! ## EndpointDescription  (source lines 269-327)

`SecurityLevel` is an integer whose type is declared outside the translated file.  Its
width in bytes, `sizeof(desc.SecurityLevel)`, is the parameter `levelWidth`; the stream
writes and reads it as a raw little-endian integer of that width. -/

/-- Modelled from the spec: the declaration of `EndpointDescription` (section 3); the
security level is a fixed-width unsigned integer. -/
structure EndpointDescription where
  EndpointURL : List Byte
  ServerDescription : ApplicationDescription
  ServerCertificate : List Byte
  SecurityMode : MessageSecurityMode
  SecurityPolicyURI : List Byte
  UserIdentifyTokens : List UserTokenPolicy
  TransportProfileURI : List Byte
  SecurityLevel : Nat
  deriving DecidableEq, Repr

def RawSize_EndpointDescription (levelWidth : Nat) (desc : EndpointDescription) : Nat :=
  RawSize_string desc.EndpointURL +
  RawSize_ApplicationDescription desc.ServerDescription +
  RawSize_string desc.ServerCertificate +
  RawSize_MessageSecurityMode desc.SecurityMode +
  RawSize_string desc.SecurityPolicyURI +
  RawSize_vector_UserTokenPolicy desc.UserIdentifyTokens +
  RawSize_string desc.TransportProfileURI +
  levelWidth

/-- The `std::for_each` loop of the source: `totalSize` starts at the header size 4 and
every element adds its `RawSize`. -/
def RawSize_vector_EndpointDescription (levelWidth : Nat)
    (vec : List EndpointDescription) : Nat :=
  vec.foldl (fun totalSize desc => totalSize + RawSize_EndpointDescription levelWidth desc) 4

def Serialize_EndpointDescription (levelWidth : Nat) (desc : EndpointDescription) :
    List Byte :=
  Serialize_string desc.EndpointURL ++
  Serialize_ApplicationDescription desc.ServerDescription ++
  Serialize_string desc.ServerCertificate ++
  Serialize_MessageSecurityMode desc.SecurityMode ++
  Serialize_string desc.SecurityPolicyURI ++
  Serialize_vector_UserTokenPolicy desc.UserIdentifyTokens ++
  Serialize_string desc.TransportProfileURI ++
  encodeLE levelWidth desc.SecurityLevel

def Deserialize_EndpointDescription (levelWidth : Nat) : Decoder EndpointDescription :=
  fun bs =>
  match Deserialize_string bs with
  | .error e => .error e
  | .ok (endpointURL, bs1) =>
    match Deserialize_ApplicationDescription bs1 with
    | .error e => .error e
    | .ok (serverDescription, bs2) =>
      match Deserialize_string bs2 with
      | .error e => .error e
      | .ok (serverCertificate, bs3) =>
        match Deserialize_MessageSecurityMode bs3 with
        | .error e => .error e
        | .ok (securityMode, bs4) =>
          match Deserialize_string bs4 with
          | .error e => .error e
          | .ok (securityPolicyURI, bs5) =>
            match Deserialize_vector_UserTokenPolicy bs5 with
            | .error e => .error e
            | .ok (userIdentifyTokens, bs6) =>
              match Deserialize_string bs6 with
              | .error e => .error e
              | .ok (transportProfileURI, bs7) =>
                match readLE levelWidth bs7 with
                | .error e => .error e
                | .ok (securityLevel, bs8) =>
                  .ok (⟨endpointURL, serverDescription, serverCertificate, securityMode,
                        securityPolicyURI, userIdentifyTokens, transportProfileURI,
                        securityLevel⟩, bs8)

def Serialize_vector_EndpointDescription (levelWidth : Nat)
    (vec : List EndpointDescription) : List Byte :=
  SerializeContainer (Serialize_EndpointDescription levelWidth) vec

def Deserialize_vector_EndpointDescription (levelWidth : Nat) :
    Decoder (List EndpointDescription) :=
  DeserializeContainer (Deserialize_EndpointDescription levelWidth)

/-! ## GetEndpointsResponse  (source lines 334-354) -/

/-- Modelled from the spec: the declaration of `GetEndpointsResponse` (section 3): type
discriminant of type `T`, header of type `H`, and the endpoint descriptions as payload. -/
structure GetEndpointsResponse (T H : Type) where
  TypeID : T
  Header : H
  Endpoints : List EndpointDescription
  deriving DecidableEq, Repr

def RawSize_GetEndpointsResponse {T H : Type} (tid : Codec T) (hdr : Codec H)
    (levelWidth : Nat) (resp : GetEndpointsResponse T H) : Nat :=
  tid.RawSize resp.TypeID + hdr.RawSize resp.Header +
    RawSize_vector_EndpointDescription levelWidth resp.Endpoints

def Serialize_GetEndpointsResponse {T H : Type} (tid : Codec T) (hdr : Codec H)
    (levelWidth : Nat) (resp : GetEndpointsResponse T H) : List Byte :=
  tid.Serialize resp.TypeID ++ hdr.Serialize resp.Header ++
    Serialize_vector_EndpointDescription levelWidth resp.Endpoints

def Deserialize_GetEndpointsResponse {T H : Type} (tid : Codec T) (hdr : Codec H)
    (levelWidth : Nat) : Decoder (GetEndpointsResponse T H) := fun bs =>
  match tid.Deserialize bs with
  | .error e => .error e
  | .ok (typeId, bs1) =>
    match hdr.Deserialize bs1 with
    | .error e => .error e
    | .ok (header, bs2) =>
      match Deserialize_vector_EndpointDescription levelWidth bs2 with
      | .error e => .error e
      | .ok (endpoints, bs3) => .ok (⟨typeId, header, endpoints⟩, bs3)

/-! ## Construction of the messages, and decoding into an existing message
(source lines 24-32, 98-104, 348-354)

The constants `GET_ENDPOINTS_REQUEST` and `GET_ENDPOINTS_RESPONSE` are declared outside
the translated file and are parameters, as is the default-constructed header.  The
default-constructed filter and endpoint list are empty (`std::string`, `std::vector`). -/

set_option linter.dupNamespace false

/-- The constructor `GetEndpointsRequest::GetEndpointsRequest()`: the member initialiser
sets `TypeID`; header and filter are default-constructed. -/
def GetEndpointsRequest.GetEndpointsRequest {T H : Type} (GET_ENDPOINTS_REQUEST : T)
    (defaultHeader : H) : GetEndpointsRequest T H :=
  { TypeID := GET_ENDPOINTS_REQUEST, Header := defaultHeader, Filter := ⟨[], [], []⟩ }

/-- The constructor `GetEndpointsResponse::GetEndpointsResponse()`: the member
initialiser sets `TypeID`; header and endpoint list are default-constructed. -/
def GetEndpointsResponse.GetEndpointsResponse {T H : Type} (GET_ENDPOINTS_RESPONSE : T)
    (defaultHeader : H) : GetEndpointsResponse T H :=
  { TypeID := GET_ENDPOINTS_RESPONSE, Header := defaultHeader, Endpoints := [] }

/-- `IStream::Deserialize<GetEndpointsRequest>(GetEndpointsRequest& request)` as the
source writes it: the message is passed by reference and each `>>` assigns one of its
members, in the order TypeID, Header, Filter. -/
def Deserialize_GetEndpointsRequest_into {T H : Type} (tid : Codec T) (hdr : Codec H)
    (request : GetEndpointsRequest T H) : Decoder (GetEndpointsRequest T H) := fun bs =>
  match tid.Deserialize bs with
  | .error e => .error e
  | .ok (typeId, bs1) =>
    let request1 := { request with TypeID := typeId }
    match hdr.Deserialize bs1 with
    | .error e => .error e
    | .ok (header, bs2) =>
      let request2 := { request1 with Header := header }
      match Deserialize_EndpointsFilter bs2 with
      | .error e => .error e
      | .ok (filter, bs3) => .ok ({ request2 with Filter := filter }, bs3)

/-- `IStream::Deserialize<GetEndpointsResponse>(GetEndpointsResponse& resp)` as the
source writes it: each `>>` assigns one member of the message passed by reference, in
the order TypeID, Header, Endpoints. -/
def Deserialize_GetEndpointsResponse_into {T H : Type} (tid : Codec T) (hdr : Codec H)
    (levelWidth : Nat) (resp : GetEndpointsResponse T H) :
    Decoder (GetEndpointsResponse T H) := fun bs =>
  match tid.Deserialize bs with
  | .error e => .error e
  | .ok (typeId, bs1) =>
    let resp1 := { resp with TypeID := typeId }
    match hdr.Deserialize bs1 with
    | .error e => .error e
    | .ok (header, bs2) =>
      let resp2 := { resp1 with Header := header }
      match Deserialize_vector_EndpointDescription levelWidth bs2 with
      | .error e => .error e
      | .ok (endpoints, bs3) => .ok ({ resp2 with Endpoints := endpoints }, bs3)

/-! ## Well-formed values

The wire count of a string, blob or sequence is a 32-bit integer, and the integer
fields are what their C++ types can hold: enumerations are 32-bit codes and the security
level fits its `levelWidth` bytes. -/

/-- Length of a string or blob representable in the 4-byte count. -/
def StringOK (s : List Byte) : Prop := s.length < 2 ^ 32

instance instDecidableStringOK (s : List Byte) : Decidable (StringOK s) :=
  inferInstanceAs (Decidable (s.length < 2 ^ 32))

/-- Sequence of strings: count and every element representable. -/
def StringsOK (v : List (List Byte)) : Prop :=
  v.length < 2 ^ 32 ∧ ∀ s ∈ v, StringOK s

instance instDecidableStringsOK (v : List (List Byte)) : Decidable (StringsOK v) :=
  inferInstanceAs (Decidable (v.length < 2 ^ 32 ∧ ∀ s ∈ v, StringOK s))

def EndpointsFilter.Valid (f : EndpointsFilter) : Prop :=
  StringOK f.EndpointURL ∧ StringsOK f.LocaleIDs ∧ StringsOK f.ProfileUries

instance instDecidableEndpointsFilterValid (f : EndpointsFilter) : Decidable f.Valid :=
  inferInstanceAs (Decidable (_ ∧ _ ∧ _))

/-- The four strings of a token policy have lengths the 4-byte count can carry. -/
def UserTokenPolicy.LengthsOK (p : UserTokenPolicy) : Prop :=
  StringOK p.PolicyID ∧ StringOK p.IssuedTokenType ∧
  StringOK p.IssuerEndpointURL ∧ StringOK p.SecurityPolicyURI

instance instDecidableUserTokenPolicyLengthsOK (p : UserTokenPolicy) :
    Decidable p.LengthsOK :=
  inferInstanceAs (Decidable (_ ∧ _ ∧ _ ∧ _))

def UserTokenPolicy.Valid (p : UserTokenPolicy) : Prop :=
  StringOK p.PolicyID ∧ p.TokenType < 2 ^ 32 ∧ StringOK p.IssuedTokenType ∧
  StringOK p.IssuerEndpointURL ∧ StringOK p.SecurityPolicyURI

instance instDecidableUserTokenPolicyValid (p : UserTokenPolicy) : Decidable p.Valid :=
  inferInstanceAs (Decidable (_ ∧ _ ∧ _ ∧ _ ∧ _))

def ApplicationDescription.Valid (d : ApplicationDescription) : Prop :=
  StringOK d.URI ∧ StringOK d.ProductURI ∧ StringOK d.Name ∧ d.Type_ < 2 ^ 32 ∧
  StringOK d.GatewayServerURI ∧ StringOK d.DiscoveryProfileURI ∧ StringsOK d.DiscoveryURLs

instance instDecidableApplicationDescriptionValid (d : ApplicationDescription) :
    Decidable d.Valid :=
  inferInstanceAs (Decidable (_ ∧ _ ∧ _ ∧ _ ∧ _ ∧ _ ∧ _))

def EndpointDescription.Valid (levelWidth : Nat) (d : EndpointDescription) : Prop :=
  StringOK d.EndpointURL ∧ d.ServerDescription.Valid ∧ StringOK d.ServerCertificate ∧
  d.SecurityMode < 2 ^ 32 ∧ StringOK d.SecurityPolicyURI ∧
  (d.UserIdentifyTokens.length < 2 ^ 32 ∧ ∀ p ∈ d.UserIdentifyTokens, p.Valid) ∧
  StringOK d.TransportProfileURI ∧ d.SecurityLevel < 256 ^ levelWidth

instance instDecidableEndpointDescriptionValid (w : Nat) (d : EndpointDescription) :
    Decidable (d.Valid w) :=
  inferInstanceAs (Decidable (_ ∧ _ ∧ _ ∧ _ ∧ _ ∧ (_ ∧ _) ∧ _ ∧ _))

/-! ## Example values -/

/-- The 4-byte unsigned integer codec packaged as a `Codec`, standing in for the codec
of the type discriminant in examples. -/
def uint32Codec : Codec Nat := ⟨RawSize_uint32, Serialize_uint32, Deserialize_uint32⟩

/-- The length-prefixed string codec packaged as a `Codec`, standing in for the codec of
the opaque message header in examples. -/
def stringCodec : Codec (List Byte) :=
  ⟨RawSize_string, Serialize_string, Deserialize_string⟩

/-- The filter of the example scenarios: URL `opc.tcp://host:4840`, no locale, no
profile. -/
def exampleFilter : EndpointsFilter :=
  ⟨ofString "opc.tcp://host:4840", [], []⟩

def exampleFilter2 : EndpointsFilter :=
  ⟨ofString "opc.tcp://host:4840", [ofString "en", ofString "de"], [ofString "tcp"]⟩

def exampleRequest : GetEndpointsRequest Nat (List Byte) :=
  ⟨428, ofString "header", exampleFilter⟩

def examplePolicy : UserTokenPolicy :=
  ⟨ofString "anonymous", 0, [], [], ofString "none"⟩

def examplePolicy2 : UserTokenPolicy :=
  ⟨ofString "user", 1, ofString "t", ofString "opc.tcp://issuer", []⟩

def exampleApplication : ApplicationDescription :=
  ⟨ofString "urn:server", ofString "urn:product", ofString "Server", 0, [], [],
    [ofString "opc.tcp://host:4840"]⟩

def exampleEndpoint : EndpointDescription :=
  ⟨ofString "opc.tcp://host:4840", exampleApplication, [1, 2, 3], 1, ofString "none",
    [examplePolicy, examplePolicy2], ofString "tcp", 3⟩

def exampleEndpoint2 : EndpointDescription :=
  ⟨ofString "opc.tcp://other:4841", exampleApplication, [], 3, [], [], [], 0⟩

def exampleResponse : GetEndpointsResponse Nat (List Byte) :=
  ⟨431, ofString "header", [exampleEndpoint, exampleEndpoint2]⟩

/-! ## Lemmas on the stream primitives -/

theorem encodeLE_length (w v : Nat) : (encodeLE w v).length = w := by
  induction w generalizing v with
  | zero => rfl
  | succ w ih => simp [encodeLE, ih]

theorem toNat_ofNat_mod (v : Nat) : (UInt8.ofNat (v % 256)).toNat = v % 256 := by
  simp [UInt8.ofNat, UInt8.toNat]

theorem decodeLE_encodeLE (w v : Nat) : decodeLE (encodeLE w v) = v % 256 ^ w := by
  induction w generalizing v with
  | zero => simp [encodeLE, decodeLE, Nat.mod_one]
  | succ w ih =>
    simp only [encodeLE, decodeLE, ih, toNat_ofNat_mod]
    rw [pow_succ', Nat.mod_mul]

theorem readLE_short (w : Nat) (bs : List Byte) (h : bs.length < w) :
    readLE w bs = .error .StreamUnderrun := by
  simp [readLE, h]

theorem readLE_append (w v : Nat) (rest : List Byte) :
    readLE w (encodeLE w v ++ rest) = .ok (v % 256 ^ w, rest) := by
  have hl := encodeLE_length w v
  simp only [readLE, List.length_append, hl]
  rw [if_neg (by omega), List.take_left' hl, decodeLE_encodeLE]
  congr 2
  exact List.drop_left' hl

theorem readLE_encodeLE (w v : Nat) (h : v < 256 ^ w) (rest : List Byte) :
    readLE w (encodeLE w v ++ rest) = .ok (v, rest) := by
  rw [readLE_append, Nat.mod_eq_of_lt h]

theorem Serialize_uint32_length (v : Nat) : (Serialize_uint32 v).length = 4 := by
  simp [Serialize_uint32, encodeLE_length]

theorem Deserialize_uint32_short (bs : List Byte) (h : bs.length < 4) :
    Deserialize_uint32 bs = .error .StreamUnderrun :=
  readLE_short 4 bs h

theorem Deserialize_uint32_Serialize (v : Nat) (h : v < 2 ^ 32) (rest : List Byte) :
    Deserialize_uint32 (Serialize_uint32 v ++ rest) = .ok (v, rest) := by
  unfold Deserialize_uint32 Serialize_uint32
  rw [Nat.mod_eq_of_lt h]
  exact readLE_encodeLE 4 v (by simpa using h) rest

theorem Serialize_string_length (s : List Byte) :
    (Serialize_string s).length = RawSize_string s := by
  simp [Serialize_string, RawSize_string, Serialize_uint32_length]

theorem Deserialize_string_Serialize (s : List Byte) (h : StringOK s) (rest : List Byte) :
    Deserialize_string (Serialize_string s ++ rest) = .ok (s, rest) := by
  unfold Deserialize_string Serialize_string
  rw [List.append_assoc, Deserialize_uint32_Serialize _ h]
  simp

/-! ## Size lemmas -/

theorem foldl_add_eq_sum {α : Type} (size : α → Nat) (c : List α) (n : Nat) :
    c.foldl (fun total x => total + size x) n = n + (c.map size).sum := by
  induction c generalizing n with
  | nil => simp
  | cons x xs ih => simp [ih, Nat.add_assoc]

theorem SerializeContainer_length {α : Type} (ser : α → List Byte) (size : α → Nat)
    (c : List α) (h : ∀ x ∈ c, (ser x).length = size x) :
    (SerializeContainer ser c).length = RawSizeContainer size c := by
  unfold SerializeContainer RawSizeContainer
  rw [List.length_append, Serialize_uint32_length, List.length_flatten, List.map_map]
  congr 2
  exact List.map_congr_left (fun x hx => h x hx)

theorem Serialize_vector_string_length (v : List (List Byte)) :
    (Serialize_vector_string v).length = RawSize_vector_string v :=
  SerializeContainer_length _ _ v (fun s _ => Serialize_string_length s)

theorem Serialize_UserIdentifyTokenType_length (t : UserIdentifyTokenType) :
    (Serialize_UserIdentifyTokenType t).length = RawSize_UserIdentifyTokenType t := by
  simp [Serialize_UserIdentifyTokenType, RawSize_UserIdentifyTokenType,
    Serialize_uint32_length]

theorem Serialize_ApplicationType_length (t : ApplicationType) :
    (Serialize_ApplicationType t).length = RawSize_ApplicationType t := by
  simp [Serialize_ApplicationType, RawSize_ApplicationType, Serialize_uint32_length]

theorem Serialize_MessageSecurityMode_length (t : MessageSecurityMode) :
    (Serialize_MessageSecurityMode t).length = RawSize_MessageSecurityMode t := by
  simp [Serialize_MessageSecurityMode, RawSize_MessageSecurityMode,
    Serialize_uint32_length]

theorem Serialize_UserTokenPolicy_length (p : UserTokenPolicy) :
    (Serialize_UserTokenPolicy p).length = RawSize_UserTokenPolicy p := by
  simp only [Serialize_UserTokenPolicy, RawSize_UserTokenPolicy, List.length_append,
    Serialize_string_length, Serialize_UserIdentifyTokenType_length]

theorem Serialize_vector_UserTokenPolicy_length (vec : List UserTokenPolicy) :
    (Serialize_vector_UserTokenPolicy vec).length = RawSize_vector_UserTokenPolicy vec := by
  unfold Serialize_vector_UserTokenPolicy RawSize_vector_UserTokenPolicy
  rw [foldl_add_eq_sum]
  exact SerializeContainer_length _ _ vec (fun p _ => Serialize_UserTokenPolicy_length p)

theorem Serialize_ApplicationDescription_length (d : ApplicationDescription) :
    (Serialize_ApplicationDescription d).length = RawSize_ApplicationDescription d := by
  simp only [Serialize_ApplicationDescription, RawSize_ApplicationDescription,
    List.length_append, Serialize_string_length, Serialize_ApplicationType_length,
    Serialize_vector_string_length]

/-! ## Round-trip lemmas -/

theorem readElements_Serialize {α : Type} (ser : α → List Byte) (dec : Decoder α)
    (c : List α) (h : ∀ x ∈ c, ∀ rest, dec (ser x ++ rest) = .ok (x, rest))
    (rest : List Byte) :
    readElements dec c.length ((c.map ser).flatten ++ rest) = .ok (c, rest) := by
  induction c with
  | nil => simp [readElements]
  | cons x xs ih =>
    have hx := h x (List.mem_cons_self x xs)
    have hxs := ih (fun y hy => h y (List.mem_cons_of_mem x hy))
    simp only [List.map_cons, List.flatten_cons, List.length_cons, List.append_assoc,
      readElements, hx, hxs]

theorem DeserializeContainer_Serialize {α : Type} (ser : α → List Byte) (dec : Decoder α)
    (c : List α) (hlen : c.length < 2 ^ 32)
    (h : ∀ x ∈ c, ∀ rest, dec (ser x ++ rest) = .ok (x, rest)) (rest : List Byte) :
    DeserializeContainer dec (SerializeContainer ser c ++ rest) = .ok (c, rest) := by
  unfold DeserializeContainer SerializeContainer
  rw [List.append_assoc, Deserialize_uint32_Serialize _ hlen]
  exact readElements_Serialize ser dec c h rest

theorem Deserialize_vector_string_Serialize (v : List (List Byte)) (h : StringsOK v)
    (rest : List Byte) :
    Deserialize_vector_string (Serialize_vector_string v ++ rest) = .ok (v, rest) :=
  DeserializeContainer_Serialize _ _ v h.1
    (fun s hs r => Deserialize_string_Serialize s (h.2 s hs) r) rest

theorem Deserialize_UserIdentifyTokenType_Serialize (t : UserIdentifyTokenType)
    (h : t < 2 ^ 32) (rest : List Byte) :
    Deserialize_UserIdentifyTokenType (Serialize_UserIdentifyTokenType t ++ rest) =
      .ok (t, rest) := by
  unfold Deserialize_UserIdentifyTokenType Serialize_UserIdentifyTokenType
  rw [Nat.mod_eq_of_lt h, Deserialize_uint32_Serialize _ h]

theorem Deserialize_ApplicationType_Serialize (t : ApplicationType)
    (h : t < 2 ^ 32) (rest : List Byte) :
    Deserialize_ApplicationType (Serialize_ApplicationType t ++ rest) = .ok (t, rest) := by
  unfold Deserialize_ApplicationType Serialize_ApplicationType
  rw [Nat.mod_eq_of_lt h, Deserialize_uint32_Serialize _ h]

theorem Deserialize_MessageSecurityMode_Serialize (t : MessageSecurityMode)
    (h : t < 2 ^ 32) (rest : List Byte) :
    Deserialize_MessageSecurityMode (Serialize_MessageSecurityMode t ++ rest) =
      .ok (t, rest) := by
  unfold Deserialize_MessageSecurityMode Serialize_MessageSecurityMode
  rw [Nat.mod_eq_of_lt h, Deserialize_uint32_Serialize _ h]

theorem Deserialize_UserTokenPolicy_Serialize (p : UserTokenPolicy) (h : p.Valid)
    (rest : List Byte) :
    Deserialize_UserTokenPolicy (Serialize_UserTokenPolicy p ++ rest) = .ok (p, rest) := by
  obtain ⟨h1, h2, h3, h4, h5⟩ := h
  simp only [Deserialize_UserTokenPolicy, Serialize_UserTokenPolicy, List.append_assoc,
    Deserialize_string_Serialize _ h1, Deserialize_UserIdentifyTokenType_Serialize _ h2,
    Deserialize_string_Serialize _ h3, Deserialize_string_Serialize _ h4,
    Deserialize_string_Serialize _ h5]

theorem Deserialize_vector_UserTokenPolicy_Serialize (vec : List UserTokenPolicy)
    (hlen : vec.length < 2 ^ 32) (h : ∀ p ∈ vec, p.Valid) (rest : List Byte) :
    Deserialize_vector_UserTokenPolicy (Serialize_vector_UserTokenPolicy vec ++ rest) =
      .ok (vec, rest) :=
  DeserializeContainer_Serialize _ _ vec hlen
    (fun p hp r => Deserialize_UserTokenPolicy_Serialize p (h p hp) r) rest

theorem Deserialize_ApplicationDescription_Serialize (d : ApplicationDescription)
    (h : d.Valid) (rest : List Byte) :
    Deserialize_ApplicationDescription (Serialize_ApplicationDescription d ++ rest) =
      .ok (d, rest) := by
  obtain ⟨h1, h2, h3, h4, h5, h6, h7⟩ := h
  simp only [Deserialize_ApplicationDescription, Serialize_ApplicationDescription,
    List.append_assoc, Deserialize_string_Serialize _ h1,
    Deserialize_string_Serialize _ h2, Deserialize_string_Serialize _ h3,
    Deserialize_ApplicationType_Serialize _ h4, Deserialize_string_Serialize _ h5,
    Deserialize_string_Serialize _ h6, Deserialize_vector_string_Serialize _ h7]

theorem Deserialize_EndpointDescription_Serialize (levelWidth : Nat)
    (d : EndpointDescription) (h : d.Valid levelWidth) (rest : List Byte) :
    Deserialize_EndpointDescription levelWidth
      (Serialize_EndpointDescription levelWidth d ++ rest) = .ok (d, rest) := by
  obtain ⟨h1, h2, h3, h4, h5, ⟨h6, h6e⟩, h7, h8⟩ := h
  simp only [Deserialize_EndpointDescription, Serialize_EndpointDescription,
    List.append_assoc, Deserialize_string_Serialize _ h1,
    Deserialize_ApplicationDescription_Serialize _ h2, Deserialize_string_Serialize _ h3,
    Deserialize_MessageSecurityMode_Serialize _ h4, Deserialize_string_Serialize _ h5,
    Deserialize_vector_UserTokenPolicy_Serialize _ h6 h6e,
    Deserialize_string_Serialize _ h7, readLE_encodeLE _ _ h8]

theorem Serialize_EndpointsFilter_length (f : EndpointsFilter) :
    (Serialize_EndpointsFilter f).length = RawSize_EndpointsFilter f := by
  obtain ⟨url, locales, profiles⟩ := f
  have hempty : RawSize_vector_string [] = 4 := rfl
  cases locales <;> cases profiles <;>
    simp only [Serialize_EndpointsFilter, RawSize_EndpointsFilter, Serialize_string_length,
      Serialize_uint32_length, Serialize_vector_string_length, hempty, List.isEmpty_nil,
      List.isEmpty_cons, if_true, if_false, List.length_append, Bool.false_eq_true]

theorem Serialize_EndpointDescription_length (levelWidth : Nat) (d : EndpointDescription) :
    (Serialize_EndpointDescription levelWidth d).length =
      RawSize_EndpointDescription levelWidth d := by
  simp only [Serialize_EndpointDescription, RawSize_EndpointDescription,
    List.length_append, Serialize_string_length, Serialize_ApplicationDescription_length,
    Serialize_MessageSecurityMode_length, Serialize_vector_UserTokenPolicy_length,
    encodeLE_length]

theorem Serialize_vector_EndpointDescription_length (levelWidth : Nat)
    (vec : List EndpointDescription) :
    (Serialize_vector_EndpointDescription levelWidth vec).length =
      RawSize_vector_EndpointDescription levelWidth vec := by
  unfold Serialize_vector_EndpointDescription RawSize_vector_EndpointDescription
  rw [foldl_add_eq_sum]
  exact SerializeContainer_length _ _ vec
    (fun d _ => Serialize_EndpointDescription_length levelWidth d)

theorem Serialize_uint32_of_lt (n : Nat) (h : n < 2 ^ 32) :
    Serialize_uint32 n = encodeLE 4 n := by
  unfold Serialize_uint32
  rw [Nat.mod_eq_of_lt h]

theorem Deserialize_vector_EndpointDescription_Serialize (levelWidth : Nat)
    (vec : List EndpointDescription) (hlen : vec.length < 2 ^ 32)
    (h : ∀ d ∈ vec, d.Valid levelWidth) (rest : List Byte) :
    Deserialize_vector_EndpointDescription levelWidth
      (Serialize_vector_EndpointDescription levelWidth vec ++ rest) = .ok (vec, rest) :=
  DeserializeContainer_Serialize _ _ vec hlen
    (fun d hd r => Deserialize_EndpointDescription_Serialize levelWidth d (h d hd) r) rest

/-! ## EndpointsFilter: the empty-sequence branch, and the request round trip -/

theorem SerializeContainer_nil {α : Type} (ser : α → List Byte) :
    SerializeContainer ser [] = Serialize_uint32 0 := by
  simp [SerializeContainer]

theorem Serialize_uint32_zero : Serialize_uint32 0 = [0, 0, 0, 0] := by decide

theorem array_branch_eq (v : List (List Byte)) :
    (if v.isEmpty then Serialize_uint32 0 else Serialize_vector_string v) =
      SerializeContainer Serialize_string v := by
  cases v with
  | nil => simp [SerializeContainer_nil]
  | cons x xs => simp [Serialize_vector_string]

theorem Serialize_EndpointsFilter_eq_generic (f : EndpointsFilter) :
    Serialize_EndpointsFilter f = Serialize_EndpointsFilter_generic f := by
  simp only [Serialize_EndpointsFilter, Serialize_EndpointsFilter_generic, array_branch_eq]

theorem Deserialize_EndpointsFilter_Serialize (f : EndpointsFilter) (h : f.Valid)
    (rest : List Byte) :
    Deserialize_EndpointsFilter (Serialize_EndpointsFilter f ++ rest) = .ok (f, rest) := by
  obtain ⟨h1, h2, h3⟩ := h
  have e2 := Deserialize_vector_string_Serialize _ h2
  have e3 := Deserialize_vector_string_Serialize _ h3
  unfold Serialize_vector_string at e2 e3
  simp only [Serialize_EndpointsFilter_eq_generic, Serialize_EndpointsFilter_generic,
    Deserialize_EndpointsFilter, List.append_assoc, Deserialize_string_Serialize _ h1,
    e2, e3]

theorem Deserialize_GetEndpointsRequest_Serialize {T H : Type} (tid : Codec T)
    (hdr : Codec H) (m : GetEndpointsRequest T H)
    (hT : ∀ rest, tid.Deserialize (tid.Serialize m.TypeID ++ rest) = .ok (m.TypeID, rest))
    (hH : ∀ rest, hdr.Deserialize (hdr.Serialize m.Header ++ rest) = .ok (m.Header, rest))
    (hF : m.Filter.Valid) (rest : List Byte) :
    Deserialize_GetEndpointsRequest tid hdr
      (Serialize_GetEndpointsRequest tid hdr m ++ rest) = .ok (m, rest) := by
  simp only [Deserialize_GetEndpointsRequest, Serialize_GetEndpointsRequest,
    List.append_assoc, hT, hH, Deserialize_EndpointsFilter_Serialize _ hF]

/-! ## Truncated input -/

theorem proper_prefix_append {b x y : List Byte} (hb : b <+: x ++ y) (hne : b ≠ x ++ y) :
    (b <+: x ∧ b ≠ x) ∨ ∃ b2, b = x ++ b2 ∧ b2 <+: y ∧ b2 ≠ y := by
  rcases List.prefix_or_prefix_of_prefix hb (List.prefix_append x y) with h | h
  · by_cases hx : b = x
    · subst hx
      refine Or.inr ⟨[], by simp, List.nil_prefix, fun h2 => hne ?_⟩
      rw [← h2, List.append_nil]
    · exact Or.inl ⟨h, hx⟩
  · obtain ⟨b2, rfl⟩ := h
    exact Or.inr ⟨b2, rfl, (List.prefix_append_right_inj x).1 hb,
      fun h2 => hne (by rw [h2])⟩

theorem proper_prefix_length_lt {b l : List Byte} (hb : b <+: l) (hne : b ≠ l) :
    b.length < l.length := by
  rcases Nat.lt_or_ge b.length l.length with h | h
  · exact h
  · exact absurd (List.IsPrefix.eq_of_length_le hb h) hne

theorem Deserialize_uint32_prefix (v : Nat) (b : List Byte)
    (hb : b <+: Serialize_uint32 v) (hne : b ≠ Serialize_uint32 v) :
    Deserialize_uint32 b = .error .StreamUnderrun := by
  apply Deserialize_uint32_short
  have := proper_prefix_length_lt hb hne
  rwa [Serialize_uint32_length] at this

theorem Deserialize_string_prefix (s : List Byte) (h : StringOK s) (b : List Byte)
    (hb : b <+: Serialize_string s) (hne : b ≠ Serialize_string s) :
    Deserialize_string b = .error .StreamUnderrun := by
  unfold Serialize_string at hb hne
  rcases proper_prefix_append hb hne with ⟨h1, h2⟩ | ⟨b2, rfl, h1, h2⟩
  · simp only [Deserialize_string, Deserialize_uint32_prefix _ _ h1 h2]
  · have hlt := proper_prefix_length_lt h1 h2
    simp only [Deserialize_string, Deserialize_uint32_Serialize _ h, hlt, if_true]

theorem Deserialize_UserIdentifyTokenType_prefix (t : UserIdentifyTokenType)
    (b : List Byte) (hb : b <+: Serialize_UserIdentifyTokenType t)
    (hne : b ≠ Serialize_UserIdentifyTokenType t) :
    Deserialize_UserIdentifyTokenType b = .error .StreamUnderrun := by
  unfold Serialize_UserIdentifyTokenType at hb hne
  simp only [Deserialize_UserIdentifyTokenType, Deserialize_uint32_prefix _ _ hb hne]

theorem Deserialize_UserIdentifyTokenType_append (t : UserIdentifyTokenType)
    (rest : List Byte) :
    Deserialize_UserIdentifyTokenType (Serialize_UserIdentifyTokenType t ++ rest) =
      .ok (t % 2 ^ 32, rest) := by
  unfold Deserialize_UserIdentifyTokenType Serialize_UserIdentifyTokenType
  rw [Deserialize_uint32_Serialize _ (Nat.mod_lt _ (by decide))]

theorem Deserialize_UserTokenPolicy_prefix (p : UserTokenPolicy) (h : p.LengthsOK)
    (b : List Byte) (hb : b <+: Serialize_UserTokenPolicy p)
    (hne : b ≠ Serialize_UserTokenPolicy p) :
    Deserialize_UserTokenPolicy b = .error .StreamUnderrun := by
  obtain ⟨h1, h3, h4, h5⟩ := h
  simp only [Serialize_UserTokenPolicy, List.append_assoc] at hb hne
  rcases proper_prefix_append hb hne with ⟨q1, q2⟩ | ⟨b1, rfl, hb1, hne1⟩
  · simp only [Deserialize_UserTokenPolicy, Deserialize_string_prefix _ h1 _ q1 q2]
  rcases proper_prefix_append hb1 hne1 with ⟨q1, q2⟩ | ⟨b2, rfl, hb2, hne2⟩
  · simp only [Deserialize_UserTokenPolicy, Deserialize_string_Serialize _ h1,
      Deserialize_UserIdentifyTokenType_prefix _ _ q1 q2]
  rcases proper_prefix_append hb2 hne2 with ⟨q1, q2⟩ | ⟨b3, rfl, hb3, hne3⟩
  · simp only [Deserialize_UserTokenPolicy, Deserialize_string_Serialize _ h1,
      Deserialize_UserIdentifyTokenType_append,
      Deserialize_string_prefix _ h3 _ q1 q2]
  rcases proper_prefix_append hb3 hne3 with ⟨q1, q2⟩ | ⟨b4, rfl, hb4, hne4⟩
  · simp only [Deserialize_UserTokenPolicy, Deserialize_string_Serialize _ h1,
      Deserialize_UserIdentifyTokenType_append,
      Deserialize_string_Serialize _ h3, Deserialize_string_prefix _ h4 _ q1 q2]
  · simp only [Deserialize_UserTokenPolicy, Deserialize_string_Serialize _ h1,
      Deserialize_UserIdentifyTokenType_append,
      Deserialize_string_Serialize _ h3, Deserialize_string_Serialize _ h4,
      Deserialize_string_prefix _ h5 _ hb4 hne4]

/-! ## Arrays whose declared count exceeds the elements present -/

theorem readElements_exhausted {α : Type} (ser : α → List Byte) (dec : Decoder α)
    (e : StreamError) (hnil : dec [] = .error e) (c : List α)
    (h : ∀ x ∈ c, ∀ rest, dec (ser x ++ rest) = .ok (x, rest)) (n : Nat)
    (hk : c.length < n) :
    readElements dec n (c.map ser).flatten = .error e := by
  induction c generalizing n with
  | nil =>
    cases n with
    | zero => exact absurd hk (Nat.lt_irrefl 0)
    | succ m => simp only [List.map_nil, List.flatten_nil, readElements, hnil]
  | cons x xs ih =>
    cases n with
    | zero => exact absurd hk (Nat.not_lt_zero _)
    | succ m =>
      have hx := h x (List.mem_cons_self x xs)
      have hxs := ih (fun y hy => h y (List.mem_cons_of_mem x hy)) m
        (Nat.lt_of_succ_lt_succ hk)
      simp only [List.map_cons, List.flatten_cons, readElements, hx, hxs]

theorem DeserializeContainer_exhausted {α : Type} (ser : α → List Byte) (dec : Decoder α)
    (e : StreamError) (hnil : dec [] = .error e) (c : List α)
    (h : ∀ x ∈ c, ∀ rest, dec (ser x ++ rest) = .ok (x, rest)) (n : Nat)
    (hn : n < 2 ^ 32) (hk : c.length < n) :
    DeserializeContainer dec (Serialize_uint32 n ++ (c.map ser).flatten) = .error e := by
  unfold DeserializeContainer
  rw [Deserialize_uint32_Serialize _ hn]
  exact readElements_exhausted ser dec e hnil c h n hk

theorem Deserialize_UserTokenPolicy_nil :
    Deserialize_UserTokenPolicy [] = .error .StreamUnderrun := by decide

theorem Deserialize_EndpointDescription_nil (levelWidth : Nat) :
    Deserialize_EndpointDescription levelWidth [] = .error .StreamUnderrun := by
  have h : Deserialize_string [] = .error .StreamUnderrun := by decide
  simp only [Deserialize_EndpointDescription, h]

/-! ## Reading a 32-bit integer -/

theorem Deserialize_uint32_cons (b0 b1 b2 b3 : Byte) (rest : List Byte) :
    Deserialize_uint32 (b0 :: b1 :: b2 :: b3 :: rest) =
      .ok (b0.toNat + 256 * (b1.toNat + 256 * (b2.toNat + 256 * (b3.toNat + 256 * 0))),
        rest) := by
  simp [Deserialize_uint32, readLE, decodeLE]

theorem Deserialize_uint32_error_iff (bs : List Byte) (e : StreamError) :
    Deserialize_uint32 bs = .error e ↔ (bs.length < 4 ∧ e = .StreamUnderrun) := by
  unfold Deserialize_uint32 readLE
  by_cases h : bs.length < 4
  · simp only [h, if_true, true_and]
    constructor
    · intro h2; cases h2; rfl
    · intro h2; rw [h2]
  · simp only [h, if_false, false_and]
    constructor
    · intro h2; cases h2
    · intro h2; exact h2.elim

theorem encodeLE_four (c : Nat) :
    encodeLE 4 c = [UInt8.ofNat (c % 256), UInt8.ofNat (c / 256 % 256),
      UInt8.ofNat (c / 256 / 256 % 256), UInt8.ofNat (c / 256 / 256 / 256 % 256)] := by
  simp [encodeLE]

/-! ## Decoding the message envelopes -/

theorem Deserialize_GetEndpointsRequest_ok_iff {T H : Type} (tid : Codec T) (hdr : Codec H)
    (bs rest : List Byte) (out : GetEndpointsRequest T H) :
    Deserialize_GetEndpointsRequest tid hdr bs = .ok (out, rest) ↔
      ∃ r1 r2, tid.Deserialize bs = .ok (out.TypeID, r1) ∧
        hdr.Deserialize r1 = .ok (out.Header, r2) ∧
        Deserialize_EndpointsFilter r2 = .ok (out.Filter, rest) := by
  constructor
  · intro h
    unfold Deserialize_GetEndpointsRequest at h
    cases h1 : tid.Deserialize bs with
    | error e => simp only [h1] at h; cases h
    | ok v1 =>
      obtain ⟨t, r1⟩ := v1
      simp only [h1] at h
      cases h2 : hdr.Deserialize r1 with
      | error e => simp only [h2] at h; cases h
      | ok v2 =>
        obtain ⟨hd, r2⟩ := v2
        simp only [h2] at h
        cases h3 : Deserialize_EndpointsFilter r2 with
        | error e => simp only [h3] at h; cases h
        | ok v3 =>
          obtain ⟨f, r3⟩ := v3
          simp only [h3] at h
          cases h
          exact ⟨r1, r2, rfl, h2, h3⟩
  · rintro ⟨r1, r2, h1, h2, h3⟩
    simp only [Deserialize_GetEndpointsRequest, h1, h2, h3]

theorem Deserialize_GetEndpointsResponse_ok_iff {T H : Type} (tid : Codec T)
    (hdr : Codec H) (levelWidth : Nat) (bs rest : List Byte)
    (out : GetEndpointsResponse T H) :
    Deserialize_GetEndpointsResponse tid hdr levelWidth bs = .ok (out, rest) ↔
      ∃ r1 r2, tid.Deserialize bs = .ok (out.TypeID, r1) ∧
        hdr.Deserialize r1 = .ok (out.Header, r2) ∧
        Deserialize_vector_EndpointDescription levelWidth r2 = .ok (out.Endpoints, rest) := by
  constructor
  · intro h
    unfold Deserialize_GetEndpointsResponse at h
    cases h1 : tid.Deserialize bs with
    | error e => simp only [h1] at h; cases h
    | ok v1 =>
      obtain ⟨t, r1⟩ := v1
      simp only [h1] at h
      cases h2 : hdr.Deserialize r1 with
      | error e => simp only [h2] at h; cases h
      | ok v2 =>
        obtain ⟨hd, r2⟩ := v2
        simp only [h2] at h
        cases h3 : Deserialize_vector_EndpointDescription levelWidth r2 with
        | error e => simp only [h3] at h; cases h
        | ok v3 =>
          obtain ⟨f, r3⟩ := v3
          simp only [h3] at h
          cases h
          exact ⟨r1, r2, rfl, h2, h3⟩
  · rintro ⟨r1, r2, h1, h2, h3⟩
    simp only [Deserialize_GetEndpointsResponse, h1, h2, h3]

theorem Deserialize_GetEndpointsRequest_into_eq {T H : Type} (tid : Codec T)
    (hdr : Codec H) (request : GetEndpointsRequest T H) (bs : List Byte) :
    Deserialize_GetEndpointsRequest_into tid hdr request bs =
      Deserialize_GetEndpointsRequest tid hdr bs := by
  unfold Deserialize_GetEndpointsRequest_into Deserialize_GetEndpointsRequest
  cases tid.Deserialize bs with
  | error e => rfl
  | ok v1 => rfl

theorem Deserialize_GetEndpointsResponse_into_eq {T H : Type} (tid : Codec T)
    (hdr : Codec H) (levelWidth : Nat) (resp : GetEndpointsResponse T H)
    (bs : List Byte) :
    Deserialize_GetEndpointsResponse_into tid hdr levelWidth resp bs =
      Deserialize_GetEndpointsResponse tid hdr levelWidth bs := by
  unfold Deserialize_GetEndpointsResponse_into Deserialize_GetEndpointsResponse
  cases tid.Deserialize bs with
  | error e => rfl
  | ok v1 => rfl

theorem Deserialize_GetEndpointsResponse_Serialize {T H : Type} (tid : Codec T)
    (hdr : Codec H) (levelWidth : Nat) (r : GetEndpointsResponse T H)
    (hT : ∀ rest, tid.Deserialize (tid.Serialize r.TypeID ++ rest) = .ok (r.TypeID, rest))
    (hH : ∀ rest, hdr.Deserialize (hdr.Serialize r.Header ++ rest) = .ok (r.Header, rest))
    (hlen : r.Endpoints.length < 2 ^ 32) (hE : ∀ d ∈ r.Endpoints, d.Valid levelWidth)
    (rest : List Byte) :
    Deserialize_GetEndpointsResponse tid hdr levelWidth
      (Serialize_GetEndpointsResponse tid hdr levelWidth r ++ rest) = .ok (r, rest) := by
  simp only [Deserialize_GetEndpointsResponse, Serialize_GetEndpointsResponse,
    List.append_assoc, hT, hH,
    Deserialize_vector_EndpointDescription_Serialize _ _ hlen hE]

/-! ## Decoding an EndpointDescription field by field -/

theorem Deserialize_EndpointDescription_ok_iff (levelWidth : Nat) (bs rest : List Byte)
    (d : EndpointDescription) :
    Deserialize_EndpointDescription levelWidth bs = .ok (d, rest) ↔
      ∃ r1 r2 r3 r4 r5 r6 r7,
        Deserialize_string bs = .ok (d.EndpointURL, r1) ∧
        Deserialize_ApplicationDescription r1 = .ok (d.ServerDescription, r2) ∧
        Deserialize_string r2 = .ok (d.ServerCertificate, r3) ∧
        Deserialize_MessageSecurityMode r3 = .ok (d.SecurityMode, r4) ∧
        Deserialize_string r4 = .ok (d.SecurityPolicyURI, r5) ∧
        Deserialize_vector_UserTokenPolicy r5 = .ok (d.UserIdentifyTokens, r6) ∧
        Deserialize_string r6 = .ok (d.TransportProfileURI, r7) ∧
        readLE levelWidth r7 = .ok (d.SecurityLevel, rest) := by
  constructor
  · intro h
    unfold Deserialize_EndpointDescription at h
    cases h1 : Deserialize_string bs with
    | error e => simp only [h1] at h; cases h
    | ok v1 =>
    obtain ⟨x1, r1⟩ := v1
    simp only [h1] at h
    cases h2 : Deserialize_ApplicationDescription r1 with
    | error e => simp only [h2] at h; cases h
    | ok v2 =>
    obtain ⟨x2, r2⟩ := v2
    simp only [h2] at h
    cases h3 : Deserialize_string r2 with
    | error e => simp only [h3] at h; cases h
    | ok v3 =>
    obtain ⟨x3, r3⟩ := v3
    simp only [h3] at h
    cases h4 : Deserialize_MessageSecurityMode r3 with
    | error e => simp only [h4] at h; cases h
    | ok v4 =>
    obtain ⟨x4, r4⟩ := v4
    simp only [h4] at h
    cases h5 : Deserialize_string r4 with
    | error e => simp only [h5] at h; cases h
    | ok v5 =>
    obtain ⟨x5, r5⟩ := v5
    simp only [h5] at h
    cases h6 : Deserialize_vector_UserTokenPolicy r5 with
    | error e => simp only [h6] at h; cases h
    | ok v6 =>
    obtain ⟨x6, r6⟩ := v6
    simp only [h6] at h
    cases h7 : Deserialize_string r6 with
    | error e => simp only [h7] at h; cases h
    | ok v7 =>
    obtain ⟨x7, r7⟩ := v7
    simp only [h7] at h
    cases h8 : readLE levelWidth r7 with
    | error e => simp only [h8] at h; cases h
    | ok v8 =>
    obtain ⟨x8, r8⟩ := v8
    simp only [h8] at h
    cases h
    exact ⟨r1, r2, r3, r4, r5, r6, r7, rfl, h2, h3, h4, h5, h6, h7, h8⟩
  · rintro ⟨r1, r2, r3, r4, r5, r6, r7, h1, h2, h3, h4, h5, h6, h7, h8⟩
    simp only [Deserialize_EndpointDescription, h1, h2, h3, h4, h5, h6, h7, h8]

/-! ## Decode then encode -/

theorem nullCount_lt : nullCount < 2 ^ 32 := by decide

theorem Deserialize_EndpointsFilter_eq_with :
    Deserialize_EndpointsFilter = Deserialize_EndpointsFilter_with Deserialize_string :=
  rfl

theorem Deserialize_string_section6_eq (bs : List Byte)
    (h : ∀ n rest, Deserialize_uint32 bs = .ok (n, rest) → n ≠ nullCount) :
    Deserialize_string_section6 bs = Deserialize_string bs := by
  unfold Deserialize_string_section6 mapDecoder Deserialize_nullable_string
    Deserialize_string
  cases h1 : Deserialize_uint32 bs with
  | error e => rfl
  | ok v1 =>
    obtain ⟨n, r⟩ := v1
    have hn := h n r h1
    simp only [hn, if_false]
    by_cases hlt : r.length < n
    · simp only [hlt, if_true]
    · simp only [hlt, if_false, Option.getD_some]

theorem Deserialize_string_section6_Serialize (s : List Byte) (h : s.length < nullCount)
    (rest : List Byte) :
    Deserialize_string_section6 (Serialize_string s ++ rest) = .ok (s, rest) := by
  have hs : StringOK s := Nat.lt_trans h nullCount_lt
  rw [Deserialize_string_section6_eq, Deserialize_string_Serialize s hs]
  intro n r hn
  unfold Serialize_string at hn
  rw [List.append_assoc, Deserialize_uint32_Serialize _ hs] at hn
  cases hn
  exact Nat.ne_of_lt h

theorem Deserialize_EndpointsFilter_section6_Serialize (f : EndpointsFilter)
    (hurl : f.EndpointURL.length < nullCount)
    (hloc : f.LocaleIDs.length < 2 ^ 32 ∧ ∀ s ∈ f.LocaleIDs, s.length < nullCount)
    (hprof : f.ProfileUries.length < 2 ^ 32 ∧ ∀ s ∈ f.ProfileUries, s.length < nullCount)
    (rest : List Byte) :
    Deserialize_EndpointsFilter_section6 (Serialize_EndpointsFilter f ++ rest) =
      .ok (f, rest) := by
  have e2 := DeserializeContainer_Serialize Serialize_string Deserialize_string_section6
    f.LocaleIDs hloc.1 (fun s hs r => Deserialize_string_section6_Serialize s (hloc.2 s hs) r)
  have e3 := DeserializeContainer_Serialize Serialize_string Deserialize_string_section6
    f.ProfileUries hprof.1
    (fun s hs r => Deserialize_string_section6_Serialize s (hprof.2 s hs) r)
  simp only [Serialize_EndpointsFilter_eq_generic, Serialize_EndpointsFilter_generic,
    Deserialize_EndpointsFilter_section6, Deserialize_EndpointsFilter_with,
    List.append_assoc, Deserialize_string_section6_Serialize _ hurl, e2, e3]

/-! ## Prefix-free encoding of EndpointDescription -/

theorem Serialize_EndpointDescription_prefix_free (levelWidth : Nat)
    (a b : EndpointDescription) (ha : a.Valid levelWidth) (hb : b.Valid levelWidth)
    (h : Serialize_EndpointDescription levelWidth a <+:
      Serialize_EndpointDescription levelWidth b) : a = b := by
  obtain ⟨rest, hrest⟩ := h
  have h1 := Deserialize_EndpointDescription_Serialize levelWidth a ha rest
  have h2 := Deserialize_EndpointDescription_Serialize levelWidth b hb []
  rw [List.append_nil, ← hrest, h1] at h2
  cases h2
  rfl

theorem Serialize_EndpointDescription_ne_nil (levelWidth : Nat) (d : EndpointDescription) :
    Serialize_EndpointDescription levelWidth d ≠ [] := by
  intro h
  have hlen := congrArg List.length h
  rw [Serialize_EndpointDescription_length] at hlen
  simp only [RawSize_EndpointDescription, RawSize_string, List.length_nil] at hlen
  omega

theorem flatten_Serialize_EndpointDescription_injective (levelWidth : Nat)
    (s t : List EndpointDescription) (hs : ∀ d ∈ s, d.Valid levelWidth)
    (ht : ∀ d ∈ t, d.Valid levelWidth)
    (h : (s.map (Serialize_EndpointDescription levelWidth)).flatten =
      (t.map (Serialize_EndpointDescription levelWidth)).flatten) : s = t := by
  induction s generalizing t with
  | nil =>
    cases t with
    | nil => rfl
    | cons b bs =>
      simp only [List.map_nil, List.flatten_nil, List.map_cons, List.flatten_cons] at h
      have h2 := (List.append_eq_nil.1 h.symm).1
      exact absurd h2 (Serialize_EndpointDescription_ne_nil levelWidth b)
  | cons a as ih =>
    cases t with
    | nil =>
      simp only [List.map_nil, List.flatten_nil, List.map_cons, List.flatten_cons] at h
      have h2 := (List.append_eq_nil.1 h).1
      exact absurd h2 (Serialize_EndpointDescription_ne_nil levelWidth a)
    | cons b bs =>
      simp only [List.map_cons, List.flatten_cons] at h
      have ha := hs a (List.mem_cons_self a as)
      have hb := ht b (List.mem_cons_self b bs)
      have hab : a = b := by
        have hpa : Serialize_EndpointDescription levelWidth a <+:
            Serialize_EndpointDescription levelWidth b ++
              (bs.map (Serialize_EndpointDescription levelWidth)).flatten :=
          ⟨_, h⟩
        have hpb : Serialize_EndpointDescription levelWidth b <+:
            Serialize_EndpointDescription levelWidth b ++
              (bs.map (Serialize_EndpointDescription levelWidth)).flatten :=
          List.prefix_append _ _
        rcases List.prefix_or_prefix_of_prefix hpa hpb with hp | hp
        · exact Serialize_EndpointDescription_prefix_free levelWidth a b ha hb hp
        · exact (Serialize_EndpointDescription_prefix_free levelWidth b a hb ha hp).symm
      subst hab
      have htl := List.append_cancel_left h
      rw [ih bs (fun d hd => hs d (List.mem_cons_of_mem a hd))
        (fun d hd => ht d (List.mem_cons_of_mem a hd)) htl]

/-! ## The claims -/

/-- C1. Size/encode agreement for EndpointDescription: the number of bytes written by
`OStream::Serialize<EndpointDescription>` equals `RawSize<EndpointDescription>`, for
every value (in particular for all values whose string, blob and sequence lengths are
below 2^32) and every width `levelWidth = sizeof(SecurityLevel)`, which both sides
count once. -/
theorem C1_EndpointDescription_size_agreement (levelWidth : Nat)
    (d : EndpointDescription) :
    (Serialize_EndpointDescription levelWidth d).length =
      RawSize_EndpointDescription levelWidth d :=
  Serialize_EndpointDescription_length levelWidth d

/-- C2. Round trip for EndpointDescription: for every well-formed `d` (string, blob and
sequence lengths below 2^32, integer fields within their C++ types) and every byte
sequence `rest`, `IStream::Deserialize<EndpointDescription>` on the bytes written by
`OStream::Serialize<EndpointDescription>(d)` followed by `rest` succeeds, returns a
record equal to `d` (all fields, the nested ApplicationDescription and every
UserTokenPolicy included) and leaves exactly `rest` unread. -/
theorem C2_EndpointDescription_round_trip (levelWidth : Nat) (d : EndpointDescription)
    (hd : d.Valid levelWidth) (rest : List Byte) :
    Deserialize_EndpointDescription levelWidth
      (Serialize_EndpointDescription levelWidth d ++ rest) = .ok (d, rest) :=
  Deserialize_EndpointDescription_Serialize levelWidth d hd rest

/-- C2 at a concrete endpoint description with two token policies, security level width
one byte, followed by two unread bytes. -/
theorem C2_EndpointDescription_round_trip_witness :
    exampleEndpoint.Valid 1 ∧
    Deserialize_EndpointDescription 1
      (Serialize_EndpointDescription 1 exampleEndpoint ++ [7, 9]) =
        .ok (exampleEndpoint, [7, 9]) :=
  ⟨by decide, C2_EndpointDescription_round_trip 1 exampleEndpoint (by decide) [7, 9]⟩

/-- C3. Size/encode agreement for EndpointsFilter on both code paths: whether a sequence
is empty (explicit zero-count branch) or not (generic array branch), the number of bytes
written by `OStream::Serialize<EndpointsFilter>` equals `RawSize<EndpointsFilter>`, which
is the sum of the sizes of the URL and of the two sequences. -/
theorem C3_EndpointsFilter_size_agreement (f : EndpointsFilter) :
    (Serialize_EndpointsFilter f).length = RawSize_EndpointsFilter f ∧
    RawSize_EndpointsFilter f =
      RawSize_string f.EndpointURL + RawSize_vector_string f.LocaleIDs +
        RawSize_vector_string f.ProfileUries :=
  ⟨Serialize_EndpointsFilter_length f, rfl⟩

/-- C4. Round trip for GetEndpointsRequest: assuming the codecs of the two externally
defined parts (type discriminant and header) round-trip on the values the message
carries, and the filter is encodable (URL and sequence lengths below 2^32),
deserializing the bytes produced by serializing `m` (followed by any unread bytes
`rest`) yields `m` again: the same TypeID, the same header and a Filter with the same
URL, the same LocaleIDs and the same ProfileUries in the same order; `rest` is left
unread. -/
theorem C4_GetEndpointsRequest_round_trip {T H : Type} (tid : Codec T) (hdr : Codec H)
    (m : GetEndpointsRequest T H)
    (hT : ∀ rest, tid.Deserialize (tid.Serialize m.TypeID ++ rest) = .ok (m.TypeID, rest))
    (hH : ∀ rest, hdr.Deserialize (hdr.Serialize m.Header ++ rest) = .ok (m.Header, rest))
    (hF : m.Filter.Valid) (rest : List Byte) :
    Deserialize_GetEndpointsRequest tid hdr
      (Serialize_GetEndpointsRequest tid hdr m ++ rest) = .ok (m, rest) :=
  Deserialize_GetEndpointsRequest_Serialize tid hdr m hT hH hF rest

/-- C4 at the example scenario: a request whose filter has URL `opc.tcp://host:4840` and
two empty sequences decodes to that URL and two empty sequences.  The discriminant is
carried by the 4-byte integer codec and the header by the string codec, both of which
round-trip on the values of the example. -/
theorem C4_GetEndpointsRequest_round_trip_witness :
    ((∀ rest, uint32Codec.Deserialize (uint32Codec.Serialize exampleRequest.TypeID ++ rest) =
        .ok (exampleRequest.TypeID, rest)) ∧
      (∀ rest, stringCodec.Deserialize (stringCodec.Serialize exampleRequest.Header ++ rest) =
        .ok (exampleRequest.Header, rest)) ∧
      exampleRequest.Filter.Valid) ∧
    Deserialize_GetEndpointsRequest uint32Codec stringCodec
      (Serialize_GetEndpointsRequest uint32Codec stringCodec exampleRequest ++ []) =
        .ok (⟨428, ofString "header", ⟨ofString "opc.tcp://host:4840", [], []⟩⟩, []) :=
  ⟨⟨fun rest => Deserialize_uint32_Serialize 428 (by decide) rest,
    fun rest => Deserialize_string_Serialize (ofString "header") (by decide) rest,
    by decide⟩,
   C4_GetEndpointsRequest_round_trip uint32Codec stringCodec exampleRequest
    (fun rest => Deserialize_uint32_Serialize 428 (by decide) rest)
    (fun rest => Deserialize_string_Serialize (ofString "header") (by decide) rest)
    (by decide) []⟩

/-- C5. Array round trip and order preservation for the response payload: for every
sequence `s` of `N < 2^32` well-formed EndpointDescription values, serializing `s`
writes the 4-byte little-endian count `N` followed by the `N` records concatenated in
sequence order; deserializing those bytes consumes them all and yields a sequence `out`
of exactly `N` elements whose `i`-th element is the `i`-th element of `s` (indeed
`out = s`); and for `N = 2` the count bytes are `02 00 00 00`. -/
theorem C5_EndpointDescription_array_round_trip (levelWidth : Nat)
    (s : List EndpointDescription) (hN : s.length < 2 ^ 32)
    (hs : ∀ d ∈ s, d.Valid levelWidth) :
    Serialize_vector_EndpointDescription levelWidth s =
      encodeLE 4 s.length ++ (s.map (Serialize_EndpointDescription levelWidth)).flatten ∧
    (∃ out : List EndpointDescription,
      Deserialize_vector_EndpointDescription levelWidth
        (Serialize_vector_EndpointDescription levelWidth s) = .ok (out, []) ∧
      out.length = s.length ∧ (∀ i, i < s.length → out[i]? = s[i]?) ∧ out = s) ∧
    (s.length = 2 →
      (Serialize_vector_EndpointDescription levelWidth s).take 4 = [2, 0, 0, 0]) := by
  have hser : Serialize_vector_EndpointDescription levelWidth s =
      encodeLE 4 s.length ++ (s.map (Serialize_EndpointDescription levelWidth)).flatten := by
    unfold Serialize_vector_EndpointDescription SerializeContainer
    rw [Serialize_uint32_of_lt _ hN]
  refine ⟨hser, ⟨s, ?_, rfl, fun _ _ => rfl, rfl⟩, ?_⟩
  · have h := Deserialize_vector_EndpointDescription_Serialize levelWidth s hN hs []
    rwa [List.append_nil] at h
  · intro h2
    rw [hser, h2, List.take_left' (encodeLE_length 4 2)]
    decide

/-- C5 at a response payload of two endpoint descriptions. -/
theorem C5_EndpointDescription_array_round_trip_witness :
    [exampleEndpoint, exampleEndpoint2].length < 2 ^ 32 ∧
    (∀ d ∈ [exampleEndpoint, exampleEndpoint2], d.Valid 1) ∧
    (∃ out : List EndpointDescription,
      Deserialize_vector_EndpointDescription 1
        (Serialize_vector_EndpointDescription 1 [exampleEndpoint, exampleEndpoint2]) =
          .ok (out, []) ∧
      out.length = 2 ∧ (∀ i, i < 2 → out[i]? = [exampleEndpoint, exampleEndpoint2][i]?) ∧
      out = [exampleEndpoint, exampleEndpoint2]) ∧
    (Serialize_vector_EndpointDescription 1 [exampleEndpoint, exampleEndpoint2]).take 4 =
      [2, 0, 0, 0] :=
  have h := C5_EndpointDescription_array_round_trip 1 [exampleEndpoint, exampleEndpoint2]
    (by decide) (by decide)
  ⟨by decide, by decide, h.2.1, h.2.2 rfl⟩

/-- C6. Size/encode agreement for both message envelopes: assuming the discriminant and
header codecs each write exactly as many bytes as their RawSize, the number of bytes
written by Serialize for a GetEndpointsRequest `m` (a GetEndpointsResponse `r`) equals
RawSize(TypeID) + RawSize(Header) + RawSize(payload), which is the value
`RawSize<GetEndpointsRequest>(m)` (`RawSize<GetEndpointsResponse>(r)`) returns. -/
theorem C6_envelope_size_agreement {T H H2 : Type} (tid : Codec T) (hdr : Codec H)
    (hdr2 : Codec H2) (levelWidth : Nat)
    (m : GetEndpointsRequest T H) (r : GetEndpointsResponse T H2)
    (hT : ∀ t, (tid.Serialize t).length = tid.RawSize t)
    (hH : ∀ h, (hdr.Serialize h).length = hdr.RawSize h)
    (hH2 : ∀ h, (hdr2.Serialize h).length = hdr2.RawSize h) :
    ((Serialize_GetEndpointsRequest tid hdr m).length =
        tid.RawSize m.TypeID + hdr.RawSize m.Header + RawSize_EndpointsFilter m.Filter ∧
      RawSize_GetEndpointsRequest tid hdr m =
        tid.RawSize m.TypeID + hdr.RawSize m.Header + RawSize_EndpointsFilter m.Filter) ∧
    ((Serialize_GetEndpointsResponse tid hdr2 levelWidth r).length =
        tid.RawSize r.TypeID + hdr2.RawSize r.Header +
          RawSize_vector_EndpointDescription levelWidth r.Endpoints ∧
      RawSize_GetEndpointsResponse tid hdr2 levelWidth r =
        tid.RawSize r.TypeID + hdr2.RawSize r.Header +
          RawSize_vector_EndpointDescription levelWidth r.Endpoints) := by
  refine ⟨⟨?_, rfl⟩, ⟨?_, rfl⟩⟩
  · simp only [Serialize_GetEndpointsRequest, List.length_append, hT, hH,
      Serialize_EndpointsFilter_length]
  · simp only [Serialize_GetEndpointsResponse, List.length_append, hT, hH2,
      Serialize_vector_EndpointDescription_length]

/-- C6 at the example request and response, with the 4-byte integer codec as
discriminant codec and the string codec as header codec, both of which write as many
bytes as their RawSize. -/
theorem C6_envelope_size_agreement_witness :
    ((∀ t, (uint32Codec.Serialize t).length = uint32Codec.RawSize t) ∧
      (∀ h, (stringCodec.Serialize h).length = stringCodec.RawSize h)) ∧
    (Serialize_GetEndpointsRequest uint32Codec stringCodec exampleRequest).length =
      RawSize_GetEndpointsRequest uint32Codec stringCodec exampleRequest ∧
    (Serialize_GetEndpointsResponse uint32Codec stringCodec 1 exampleResponse).length =
      RawSize_GetEndpointsResponse uint32Codec stringCodec 1 exampleResponse ∧
    RawSize_GetEndpointsRequest uint32Codec stringCodec exampleRequest = 45 ∧
    RawSize_GetEndpointsResponse uint32Codec stringCodec 1 exampleResponse = 347 :=
  have h := C6_envelope_size_agreement uint32Codec stringCodec stringCodec 1
    exampleRequest exampleResponse
    (fun t => Serialize_uint32_length t) (fun s => Serialize_string_length s)
    (fun s => Serialize_string_length s)
  ⟨⟨fun t => Serialize_uint32_length t, fun s => Serialize_string_length s⟩,
   h.1.1.trans h.1.2.symm, h.2.1.trans h.2.2.symm, by decide, by decide⟩

/-- C7. Truncation fails closed for UserTokenPolicy: for every policy `p` whose four
strings are encodable (lengths below 2^32, so that the 4-byte count is the length) and
every proper prefix `b` of the bytes written by `OStream::Serialize<UserTokenPolicy>(p)`,
and so in particular for the encoding with its last byte removed,
`IStream::Deserialize<UserTokenPolicy>` on `b` fails with StreamUnderrun and returns no
UserTokenPolicy. -/
theorem C7_UserTokenPolicy_truncation_fails (p : UserTokenPolicy) (hp : p.LengthsOK) :
    (∀ b : List Byte, b <+: Serialize_UserTokenPolicy p → b ≠ Serialize_UserTokenPolicy p →
      Deserialize_UserTokenPolicy b = .error .StreamUnderrun) ∧
    Deserialize_UserTokenPolicy (Serialize_UserTokenPolicy p).dropLast =
      .error .StreamUnderrun := by
  refine ⟨fun b hb hne => Deserialize_UserTokenPolicy_prefix p hp b hb hne, ?_⟩
  refine Deserialize_UserTokenPolicy_prefix p hp _ (List.dropLast_prefix _) (fun h => ?_)
  have hlen := congrArg List.length h
  rw [List.length_dropLast, Serialize_UserTokenPolicy_length] at hlen
  simp only [RawSize_UserTokenPolicy, RawSize_string, RawSize_UserIdentifyTokenType] at hlen
  omega

/-- C7 at the example policy: its encoding with the last byte removed (the cut falls
inside the last field, the security policy URI), and its first seven bytes. -/
theorem C7_UserTokenPolicy_truncation_fails_witness :
    examplePolicy.LengthsOK ∧
    Deserialize_UserTokenPolicy (Serialize_UserTokenPolicy examplePolicy).dropLast =
      .error .StreamUnderrun ∧
    Deserialize_UserTokenPolicy ((Serialize_UserTokenPolicy examplePolicy).take 7) =
      .error .StreamUnderrun :=
  ⟨by decide, (C7_UserTokenPolicy_truncation_fails examplePolicy (by decide)).2,
   (C7_UserTokenPolicy_truncation_fails examplePolicy (by decide)).1 _ (by decide)
    (by decide)⟩

/-- C8. Unsatisfiable array count fails: if the input is the 4-byte count `n` followed by
the encodings of only `k < n` well-formed UserTokenPolicy (or EndpointDescription)
elements and nothing else, the array Deserialize fails with StreamUnderrun and returns
no sequence (in particular not the `k` decoded elements).  The error is the one the
element decoder raises on the exhausted input: the count is not compared with the
remaining length beforehand. -/
theorem C8_unsatisfiable_array_count_fails (levelWidth n : Nat) (hn : n < 2 ^ 32)
    (ps : List UserTokenPolicy) (hps : ∀ p ∈ ps, p.Valid) (hkp : ps.length < n)
    (ds : List EndpointDescription) (hds : ∀ d ∈ ds, d.Valid levelWidth)
    (hkd : ds.length < n) :
    (Deserialize_vector_UserTokenPolicy
        (Serialize_uint32 n ++ (ps.map Serialize_UserTokenPolicy).flatten) =
          .error .StreamUnderrun ∧
      Deserialize_UserTokenPolicy [] = .error .StreamUnderrun) ∧
    (Deserialize_vector_EndpointDescription levelWidth
        (Serialize_uint32 n ++ (ds.map (Serialize_EndpointDescription levelWidth)).flatten) =
          .error .StreamUnderrun ∧
      Deserialize_EndpointDescription levelWidth [] = .error .StreamUnderrun) :=
  ⟨⟨DeserializeContainer_exhausted _ _ _ Deserialize_UserTokenPolicy_nil ps
      (fun p hp r => Deserialize_UserTokenPolicy_Serialize p (hps p hp) r) n hn hkp,
    Deserialize_UserTokenPolicy_nil⟩,
   ⟨DeserializeContainer_exhausted _ _ _ (Deserialize_EndpointDescription_nil levelWidth)
      ds (fun d hd r => Deserialize_EndpointDescription_Serialize levelWidth d (hds d hd) r)
      n hn hkd,
    Deserialize_EndpointDescription_nil levelWidth⟩⟩

/-- C8 at count 3 followed by two token policies, and count 3 followed by one endpoint
description. -/
theorem C8_unsatisfiable_array_count_fails_witness :
    ((3 : Nat) < 2 ^ 32 ∧ (∀ p ∈ [examplePolicy, examplePolicy2], p.Valid) ∧
      [examplePolicy, examplePolicy2].length < 3 ∧
      (∀ d ∈ [exampleEndpoint], d.Valid 1) ∧ [exampleEndpoint].length < 3) ∧
    Deserialize_vector_UserTokenPolicy
      (Serialize_uint32 3 ++
        ([examplePolicy, examplePolicy2].map Serialize_UserTokenPolicy).flatten) =
          .error .StreamUnderrun ∧
    Deserialize_vector_EndpointDescription 1
      (Serialize_uint32 3 ++
        ([exampleEndpoint].map (Serialize_EndpointDescription 1)).flatten) =
          .error .StreamUnderrun :=
  have h := C8_unsatisfiable_array_count_fails 1 3 (by decide)
    [examplePolicy, examplePolicy2] (by decide) (by decide)
    [exampleEndpoint] (by decide) (by decide)
  ⟨⟨by decide, by decide, by decide, by decide, by decide⟩, h.1.1, h.2.1⟩

/-- C9. The explicit empty-case path of EndpointsFilter is a pure optimization: for every
filter the bytes written by `OStream::Serialize<EndpointsFilter>` (which writes
`uint32 0` directly for an empty sequence) are identical to the bytes of the single
generic path (length-prefixed URL, generic array encoding of LocaleIDs, generic array
encoding of ProfileUries); for URL `opc.tcp://host:4840` with both sequences empty the
output is the length-prefixed URL followed by eight zero bytes. -/
theorem C9_EndpointsFilter_empty_branch_is_generic :
    (∀ f : EndpointsFilter,
      Serialize_EndpointsFilter f = Serialize_EndpointsFilter_generic f) ∧
    Serialize_EndpointsFilter ⟨ofString "opc.tcp://host:4840", [], []⟩ =
      Serialize_string (ofString "opc.tcp://host:4840") ++ [0, 0, 0, 0, 0, 0, 0, 0] ∧
    Serialize_string (ofString "opc.tcp://host:4840") =
      [19, 0, 0, 0] ++ ofString "opc.tcp://host:4840" :=
  ⟨Serialize_EndpointsFilter_eq_generic, by decide, by decide⟩

/-- C10. Array framing of the empty sequence: the generic array path writes exactly the
four bytes `00 00 00 00` for an empty sequence of UserTokenPolicy, of
ApplicationDescription or of EndpointDescription, the same four bytes the explicit
empty-case branch of EndpointsFilter writes for an empty LocaleIDs and for an empty
ProfileUries (next to a non-empty sibling sequence, and when both are empty). -/
theorem C10_empty_sequence_framing (levelWidth : Nat) (url x : List Byte)
    (xs : List (List Byte)) :
    Serialize_vector_UserTokenPolicy [] = [0, 0, 0, 0] ∧
    Serialize_vector_ApplicationDescription [] = [0, 0, 0, 0] ∧
    Serialize_vector_EndpointDescription levelWidth [] = [0, 0, 0, 0] ∧
    Serialize_EndpointsFilter ⟨url, [], x :: xs⟩ =
      Serialize_string url ++ [0, 0, 0, 0] ++ Serialize_vector_string (x :: xs) ∧
    Serialize_EndpointsFilter ⟨url, x :: xs, []⟩ =
      Serialize_string url ++ Serialize_vector_string (x :: xs) ++ [0, 0, 0, 0] ∧
    Serialize_EndpointsFilter ⟨url, [], []⟩ =
      Serialize_string url ++ [0, 0, 0, 0] ++ [0, 0, 0, 0] := by
  refine ⟨?_, ?_, ?_, ?_, ?_, ?_⟩
  · exact (SerializeContainer_nil _).trans Serialize_uint32_zero
  · exact (SerializeContainer_nil _).trans Serialize_uint32_zero
  · exact (SerializeContainer_nil _).trans Serialize_uint32_zero
  · simp only [Serialize_EndpointsFilter, List.isEmpty_nil, List.isEmpty_cons, if_true,
      if_false, Serialize_uint32_zero, Bool.false_eq_true]
  · simp only [Serialize_EndpointsFilter, List.isEmpty_nil, List.isEmpty_cons, if_true,
      if_false, Serialize_uint32_zero, Bool.false_eq_true]
  · simp only [Serialize_EndpointsFilter, List.isEmpty_nil, if_true,
      Serialize_uint32_zero]

/-- C11. Unknown enum tolerance: on an input with at least 4 bytes,
`IStream::Deserialize<ApplicationType>` and `IStream::Deserialize<UserIdentifyTokenType>`
succeed, return the value whose code is the little-endian 32-bit integer of the first 4
bytes (any code, no check against the known members) and leave exactly the bytes after
the fourth unread; the decode fails, with StreamUnderrun, if and only if fewer than 4
bytes remain. -/
theorem C11_unknown_enum_tolerance (bs : List Byte) (b0 b1 b2 b3 : Byte)
    (rest : List Byte) :
    (Deserialize_ApplicationType (b0 :: b1 :: b2 :: b3 :: rest) =
        .ok (b0.toNat + 256 * b1.toNat + 65536 * b2.toNat + 16777216 * b3.toNat, rest) ∧
      Deserialize_UserIdentifyTokenType (b0 :: b1 :: b2 :: b3 :: rest) =
        .ok (b0.toNat + 256 * b1.toNat + 65536 * b2.toNat + 16777216 * b3.toNat, rest)) ∧
    ((bs.length < 4 ↔ Deserialize_ApplicationType bs = .error .StreamUnderrun) ∧
      (bs.length < 4 ↔ ∃ e, Deserialize_ApplicationType bs = .error e) ∧
      (bs.length < 4 ↔ Deserialize_UserIdentifyTokenType bs = .error .StreamUnderrun) ∧
      (bs.length < 4 ↔ ∃ e, Deserialize_UserIdentifyTokenType bs = .error e)) ∧
    (Deserialize_ApplicationType [0xEF, 0xBE, 0xAD, 0xDE, 7] = .ok (0xDEADBEEF, [7]) ∧
      Deserialize_UserIdentifyTokenType [0xFF, 0xFF, 0xFF, 0xFF] = .ok (4294967295, [])) := by
  have hval : b0.toNat + 256 * (b1.toNat + 256 * (b2.toNat + 256 * (b3.toNat + 256 * 0))) =
      b0.toNat + 256 * b1.toNat + 65536 * b2.toNat + 16777216 * b3.toNat := by omega
  have key : ∀ e, (Deserialize_ApplicationType bs = .error e ↔
      (bs.length < 4 ∧ e = .StreamUnderrun)) ∧
      (Deserialize_UserIdentifyTokenType bs = .error e ↔
      (bs.length < 4 ∧ e = .StreamUnderrun)) := by
    intro e
    have h := Deserialize_uint32_error_iff bs e
    unfold Deserialize_ApplicationType Deserialize_UserIdentifyTokenType
    cases hd : Deserialize_uint32 bs with
    | error e2 => rw [hd] at h; exact ⟨h, h⟩
    | ok v =>
      rw [hd] at h
      obtain ⟨tmp, r⟩ := v
      have hno : ¬ (bs.length < 4 ∧ e = .StreamUnderrun) := fun h2 => by
        have h3 := h.2 h2
        cases h3
      exact ⟨⟨fun h2 => (by cases h2), fun h2 => (hno h2).elim⟩,
        ⟨fun h2 => (by cases h2), fun h2 => (hno h2).elim⟩⟩
  refine ⟨⟨?_, ?_⟩, ⟨?_, ?_, ?_, ?_⟩, by decide, by decide⟩
  · simp only [Deserialize_ApplicationType, Deserialize_uint32_cons, hval]
  · simp only [Deserialize_UserIdentifyTokenType, Deserialize_uint32_cons, hval]
  · exact ⟨fun h => ((key _).1).2 ⟨h, rfl⟩, fun h => (((key _).1).1 h).1⟩
  · exact ⟨fun h => ⟨_, ((key _).1).2 ⟨h, rfl⟩⟩, fun ⟨e, h⟩ => (((key e).1).1 h).1⟩
  · exact ⟨fun h => ((key _).2).2 ⟨h, rfl⟩, fun h => (((key _).2).1 h).1⟩
  · exact ⟨fun h => ⟨_, ((key _).2).2 ⟨h, rfl⟩⟩, fun ⟨e, h⟩ => (((key e).2).1 h).1⟩

/-- C12. Scalar codec round trip: for every 32-bit code `c`, serializing an
ApplicationType (or UserIdentifyTokenType) carrying `c` writes exactly 4 bytes, the
little-endian representation of `c` (least significant byte first), which matches
RawSize = 4, and deserializing those 4 bytes returns a value carrying `c` again and
leaves nothing unread. -/
theorem C12_scalar_codec_round_trip (c : Nat) (hc : c < 2 ^ 32) :
    (Serialize_ApplicationType c =
        [UInt8.ofNat (c % 256), UInt8.ofNat (c / 256 % 256),
          UInt8.ofNat (c / 256 / 256 % 256), UInt8.ofNat (c / 256 / 256 / 256 % 256)] ∧
      (Serialize_ApplicationType c).length = 4 ∧
      RawSize_ApplicationType c = 4 ∧
      Deserialize_ApplicationType (Serialize_ApplicationType c) = .ok (c, [])) ∧
    (Serialize_UserIdentifyTokenType c =
        [UInt8.ofNat (c % 256), UInt8.ofNat (c / 256 % 256),
          UInt8.ofNat (c / 256 / 256 % 256), UInt8.ofNat (c / 256 / 256 / 256 % 256)] ∧
      (Serialize_UserIdentifyTokenType c).length = 4 ∧
      RawSize_UserIdentifyTokenType c = 4 ∧
      Deserialize_UserIdentifyTokenType (Serialize_UserIdentifyTokenType c) =
        .ok (c, [])) := by
  have h1 : Serialize_ApplicationType c = encodeLE 4 c := by
    unfold Serialize_ApplicationType Serialize_uint32
    rw [Nat.mod_eq_of_lt hc, Nat.mod_eq_of_lt hc]
  have h2 : Serialize_UserIdentifyTokenType c = encodeLE 4 c := by
    unfold Serialize_UserIdentifyTokenType Serialize_uint32
    rw [Nat.mod_eq_of_lt hc, Nat.mod_eq_of_lt hc]
  have r1 := Deserialize_ApplicationType_Serialize c hc []
  have r2 := Deserialize_UserIdentifyTokenType_Serialize c hc []
  rw [List.append_nil] at r1 r2
  refine ⟨⟨?_, ?_, rfl, r1⟩, ⟨?_, ?_, rfl, r2⟩⟩
  · rw [h1, encodeLE_four]
  · rw [h1, encodeLE_length]
  · rw [h2, encodeLE_four]
  · rw [h2, encodeLE_length]

/-- C12 at the code `0x01020304`, which is not a known member of either enumeration. -/
theorem C12_scalar_codec_round_trip_witness :
    (0x01020304 : Nat) < 2 ^ 32 ∧
    Serialize_ApplicationType 0x01020304 = [4, 3, 2, 1] ∧
    Deserialize_ApplicationType [4, 3, 2, 1] = .ok (0x01020304, []) ∧
    Serialize_UserIdentifyTokenType 0x01020304 = [4, 3, 2, 1] ∧
    Deserialize_UserIdentifyTokenType [4, 3, 2, 1] = .ok (0x01020304, []) :=
  have h := C12_scalar_codec_round_trip 0x01020304 (by decide)
  ⟨by decide, h.1.1, h.1.2.2.2, h.2.1, h.2.2.2.2⟩

/-- C13. Declared field order of composite records: the bytes written for a
UserTokenPolicy are the concatenation, with nothing in between, of the encodings of
policy identifier, token kind, issued-token-type, issuer endpoint URL, security policy
URI; for an ApplicationDescription of application URI, product URI, name, application
kind, gateway server URI, discovery profile URI, discovery URLs array; for an
EndpointDescription of endpoint URL, ApplicationDescription, server certificate,
security mode, security policy URI, token policies array, transport profile URI and the
security level, which is written as a raw integer of its fixed width `levelWidth`
(exactly `levelWidth` bytes at the end, no length prefix). -/
theorem C13_declared_field_order (levelWidth : Nat) (p : UserTokenPolicy)
    (a : ApplicationDescription) (d : EndpointDescription) :
    Serialize_UserTokenPolicy p =
      Serialize_string p.PolicyID ++ (Serialize_UserIdentifyTokenType p.TokenType ++
      (Serialize_string p.IssuedTokenType ++ (Serialize_string p.IssuerEndpointURL ++
      Serialize_string p.SecurityPolicyURI))) ∧
    Serialize_ApplicationDescription a =
      Serialize_string a.URI ++ (Serialize_string a.ProductURI ++
      (Serialize_string a.Name ++ (Serialize_ApplicationType a.Type_ ++
      (Serialize_string a.GatewayServerURI ++ (Serialize_string a.DiscoveryProfileURI ++
      Serialize_vector_string a.DiscoveryURLs))))) ∧
    Serialize_EndpointDescription levelWidth d =
      Serialize_string d.EndpointURL ++
      (Serialize_ApplicationDescription d.ServerDescription ++
      (Serialize_string d.ServerCertificate ++
      (Serialize_MessageSecurityMode d.SecurityMode ++
      (Serialize_string d.SecurityPolicyURI ++
      (Serialize_vector_UserTokenPolicy d.UserIdentifyTokens ++
      (Serialize_string d.TransportProfileURI ++
      encodeLE levelWidth d.SecurityLevel)))))) ∧
    (encodeLE levelWidth d.SecurityLevel).length = levelWidth ∧
    (Serialize_EndpointDescription levelWidth d).drop
      ((Serialize_EndpointDescription levelWidth d).length - levelWidth) =
        encodeLE levelWidth d.SecurityLevel := by
  refine ⟨?_, ?_, ?_, encodeLE_length _ _, ?_⟩
  · simp only [Serialize_UserTokenPolicy, List.append_assoc]
  · simp only [Serialize_ApplicationDescription, List.append_assoc]
  · simp only [Serialize_EndpointDescription, List.append_assoc]
  · unfold Serialize_EndpointDescription
    rw [List.length_append, encodeLE_length, Nat.add_sub_cancel, List.drop_left]

/-- C14. Envelope layout: for every GetEndpointsRequest and every GetEndpointsResponse
the serialized bytes are exactly the encoding of the type discriminant, followed by the
header encoding, followed by the payload encoding (the EndpointsFilter record for the
request, the count-prefixed array of EndpointDescription for the response); and
Deserialize reads the three parts in that same order: it succeeds with message `out`
and unread bytes `rest` exactly when the discriminant decoder yields `out.TypeID` on the
input, the header decoder yields `out.Header` on what the discriminant left, and the
payload decoder yields the payload on what the header left, leaving `rest`. -/
theorem C14_envelope_layout {T H H2 : Type} (tid : Codec T) (hdr : Codec H)
    (hdr2 : Codec H2) (levelWidth : Nat)
    (m out : GetEndpointsRequest T H) (r out2 : GetEndpointsResponse T H2)
    (bs rest : List Byte) :
    (Serialize_GetEndpointsRequest tid hdr m =
        tid.Serialize m.TypeID ++ (hdr.Serialize m.Header ++
          Serialize_EndpointsFilter m.Filter) ∧
      (Deserialize_GetEndpointsRequest tid hdr bs = .ok (out, rest) ↔
        ∃ r1 r2, tid.Deserialize bs = .ok (out.TypeID, r1) ∧
          hdr.Deserialize r1 = .ok (out.Header, r2) ∧
          Deserialize_EndpointsFilter r2 = .ok (out.Filter, rest))) ∧
    (Serialize_GetEndpointsResponse tid hdr2 levelWidth r =
        tid.Serialize r.TypeID ++ (hdr2.Serialize r.Header ++
          (Serialize_uint32 r.Endpoints.length ++
            (r.Endpoints.map (Serialize_EndpointDescription levelWidth)).flatten)) ∧
      (Deserialize_GetEndpointsResponse tid hdr2 levelWidth bs = .ok (out2, rest) ↔
        ∃ r1 r2, tid.Deserialize bs = .ok (out2.TypeID, r1) ∧
          hdr2.Deserialize r1 = .ok (out2.Header, r2) ∧
          Deserialize_vector_EndpointDescription levelWidth r2 =
            .ok (out2.Endpoints, rest))) := by
  refine ⟨⟨?_, Deserialize_GetEndpointsRequest_ok_iff tid hdr bs rest out⟩,
    ⟨?_, Deserialize_GetEndpointsResponse_ok_iff tid hdr2 levelWidth bs rest out2⟩⟩
  · simp only [Serialize_GetEndpointsRequest, List.append_assoc]
  · simp only [Serialize_GetEndpointsResponse, Serialize_vector_EndpointDescription,
      SerializeContainer, List.append_assoc]

/-- C15. All-or-nothing record decode: `IStream::Deserialize<EndpointDescription>`
either succeeds with all eight fields populated or fails.  If the fields before the
`k`-th decode successfully and the decoder of the `k`-th field (string, nested
ApplicationDescription, blob, enumeration, UserTokenPolicy array or security level)
fails with error `e`, the record decode fails with that same error `e` and returns no
EndpointDescription (eight clauses, `k` = 1..8); it returns a record exactly when all
eight field decoders succeed one after the other, and the record then holds the eight
decoded values. -/
theorem C15_all_or_nothing_record_decode (levelWidth : Nat) (e : StreamError)
    (bs r1 r2 r3 r4 r5 r6 r7 rest : List Byte) (d : EndpointDescription) :
    ((Deserialize_string bs = .error e →
        Deserialize_EndpointDescription levelWidth bs = .error e) ∧
      (Deserialize_string bs = .ok (d.EndpointURL, r1) →
        Deserialize_ApplicationDescription r1 = .error e →
        Deserialize_EndpointDescription levelWidth bs = .error e) ∧
      (Deserialize_string bs = .ok (d.EndpointURL, r1) →
        Deserialize_ApplicationDescription r1 = .ok (d.ServerDescription, r2) →
        Deserialize_string r2 = .error e →
        Deserialize_EndpointDescription levelWidth bs = .error e) ∧
      (Deserialize_string bs = .ok (d.EndpointURL, r1) →
        Deserialize_ApplicationDescription r1 = .ok (d.ServerDescription, r2) →
        Deserialize_string r2 = .ok (d.ServerCertificate, r3) →
        Deserialize_MessageSecurityMode r3 = .error e →
        Deserialize_EndpointDescription levelWidth bs = .error e) ∧
      (Deserialize_string bs = .ok (d.EndpointURL, r1) →
        Deserialize_ApplicationDescription r1 = .ok (d.ServerDescription, r2) →
        Deserialize_string r2 = .ok (d.ServerCertificate, r3) →
        Deserialize_MessageSecurityMode r3 = .ok (d.SecurityMode, r4) →
        Deserialize_string r4 = .error e →
        Deserialize_EndpointDescription levelWidth bs = .error e) ∧
      (Deserialize_string bs = .ok (d.EndpointURL, r1) →
        Deserialize_ApplicationDescription r1 = .ok (d.ServerDescription, r2) →
        Deserialize_string r2 = .ok (d.ServerCertificate, r3) →
        Deserialize_MessageSecurityMode r3 = .ok (d.SecurityMode, r4) →
        Deserialize_string r4 = .ok (d.SecurityPolicyURI, r5) →
        Deserialize_vector_UserTokenPolicy r5 = .error e →
        Deserialize_EndpointDescription levelWidth bs = .error e) ∧
      (Deserialize_string bs = .ok (d.EndpointURL, r1) →
        Deserialize_ApplicationDescription r1 = .ok (d.ServerDescription, r2) →
        Deserialize_string r2 = .ok (d.ServerCertificate, r3) →
        Deserialize_MessageSecurityMode r3 = .ok (d.SecurityMode, r4) →
        Deserialize_string r4 = .ok (d.SecurityPolicyURI, r5) →
        Deserialize_vector_UserTokenPolicy r5 = .ok (d.UserIdentifyTokens, r6) →
        Deserialize_string r6 = .error e →
        Deserialize_EndpointDescription levelWidth bs = .error e) ∧
      (Deserialize_string bs = .ok (d.EndpointURL, r1) →
        Deserialize_ApplicationDescription r1 = .ok (d.ServerDescription, r2) →
        Deserialize_string r2 = .ok (d.ServerCertificate, r3) →
        Deserialize_MessageSecurityMode r3 = .ok (d.SecurityMode, r4) →
        Deserialize_string r4 = .ok (d.SecurityPolicyURI, r5) →
        Deserialize_vector_UserTokenPolicy r5 = .ok (d.UserIdentifyTokens, r6) →
        Deserialize_string r6 = .ok (d.TransportProfileURI, r7) →
        readLE levelWidth r7 = .error e →
        Deserialize_EndpointDescription levelWidth bs = .error e)) ∧
    (Deserialize_EndpointDescription levelWidth bs = .ok (d, rest) ↔
      ∃ q1 q2 q3 q4 q5 q6 q7,
        Deserialize_string bs = .ok (d.EndpointURL, q1) ∧
        Deserialize_ApplicationDescription q1 = .ok (d.ServerDescription, q2) ∧
        Deserialize_string q2 = .ok (d.ServerCertificate, q3) ∧
        Deserialize_MessageSecurityMode q3 = .ok (d.SecurityMode, q4) ∧
        Deserialize_string q4 = .ok (d.SecurityPolicyURI, q5) ∧
        Deserialize_vector_UserTokenPolicy q5 = .ok (d.UserIdentifyTokens, q6) ∧
        Deserialize_string q6 = .ok (d.TransportProfileURI, q7) ∧
        readLE levelWidth q7 = .ok (d.SecurityLevel, rest)) := by
  refine ⟨⟨?_, ?_, ?_, ?_, ?_, ?_, ?_, ?_⟩,
    Deserialize_EndpointDescription_ok_iff levelWidth bs rest d⟩
  · intro h1
    simp only [Deserialize_EndpointDescription, h1]
  · intro h1 h2
    simp only [Deserialize_EndpointDescription, h1, h2]
  · intro h1 h2 h3
    simp only [Deserialize_EndpointDescription, h1, h2, h3]
  · intro h1 h2 h3 h4
    simp only [Deserialize_EndpointDescription, h1, h2, h3, h4]
  · intro h1 h2 h3 h4 h5
    simp only [Deserialize_EndpointDescription, h1, h2, h3, h4, h5]
  · intro h1 h2 h3 h4 h5 h6
    simp only [Deserialize_EndpointDescription, h1, h2, h3, h4, h5, h6]
  · intro h1 h2 h3 h4 h5 h6 h7
    simp only [Deserialize_EndpointDescription, h1, h2, h3, h4, h5, h6, h7]
  · intro h1 h2 h3 h4 h5 h6 h7 h8
    simp only [Deserialize_EndpointDescription, h1, h2, h3, h4, h5, h6, h7, h8]

/-- C15 at two truncated inputs: on two bytes the first field (the endpoint URL) fails,
on a complete URL followed by nothing the second field (the application description)
fails; either way the record decode fails with the StreamUnderrun of that field. -/
theorem C15_all_or_nothing_record_decode_witness :
    Deserialize_EndpointDescription 1 [1, 0] = .error .StreamUnderrun ∧
    Deserialize_EndpointDescription 1 [1, 0, 0, 0, 117] = .error .StreamUnderrun :=
  ⟨(C15_all_or_nothing_record_decode 1 .StreamUnderrun [1, 0] [] [] [] [] [] [] [] []
      exampleEndpoint).1.1 (by decide),
   (C15_all_or_nothing_record_decode 1 .StreamUnderrun [1, 0, 0, 0, 117] [] [] [] [] [] []
      [] [] { exampleEndpoint2 with EndpointURL := [117] }).1.2.1 (by decide) (by decide)⟩

/-- C16. Array size formula: for every sequence of UserTokenPolicy and every sequence of
EndpointDescription, RawSize of the sequence is 4 plus the sum of RawSize over its
elements; RawSize of the empty sequence is 4; and
RawSize(s ++ t) = RawSize(s) + RawSize(t) - 4. -/
theorem C16_array_size_formula (levelWidth : Nat) (s t : List UserTokenPolicy)
    (u v : List EndpointDescription) :
    (RawSize_vector_UserTokenPolicy s = 4 + (s.map RawSize_UserTokenPolicy).sum ∧
      RawSize_vector_UserTokenPolicy [] = 4 ∧
      RawSize_vector_UserTokenPolicy (s ++ t) =
        RawSize_vector_UserTokenPolicy s + RawSize_vector_UserTokenPolicy t - 4) ∧
    (RawSize_vector_EndpointDescription levelWidth u =
        4 + (u.map (RawSize_EndpointDescription levelWidth)).sum ∧
      RawSize_vector_EndpointDescription levelWidth [] = 4 ∧
      RawSize_vector_EndpointDescription levelWidth (u ++ v) =
        RawSize_vector_EndpointDescription levelWidth u +
          RawSize_vector_EndpointDescription levelWidth v - 4) := by
  unfold RawSize_vector_UserTokenPolicy RawSize_vector_EndpointDescription
  refine ⟨⟨foldl_add_eq_sum _ _ _, rfl, ?_⟩, ⟨foldl_add_eq_sum _ _ _, rfl, ?_⟩⟩
  · rw [foldl_add_eq_sum, foldl_add_eq_sum, foldl_add_eq_sum, List.map_append,
      List.sum_append]
    omega
  · rw [foldl_add_eq_sum, foldl_add_eq_sum, foldl_add_eq_sum, List.map_append,
      List.sum_append]
    omega

/-- C17. Construction discriminant: a freshly constructed GetEndpointsRequest has TypeID
equal to the constant GET_ENDPOINTS_REQUEST and a freshly constructed
GetEndpointsResponse has TypeID equal to GET_ENDPOINTS_RESPONSE.  RawSize and Serialize
only read the TypeID of the message they are given (they never replace it by a
recomputed value: the discriminant bytes of any message are the encoding of its current
TypeID), so serializing a fresh message emits that constant as its discriminant. -/
theorem C17_construction_discriminant {T H H2 : Type} (tid : Codec T) (hdr : Codec H)
    (hdr2 : Codec H2) (levelWidth : Nat) (GET_ENDPOINTS_REQUEST GET_ENDPOINTS_RESPONSE : T)
    (defaultHeader : H) (defaultHeader2 : H2)
    (m : GetEndpointsRequest T H) (r : GetEndpointsResponse T H2) :
    ((GetEndpointsRequest.GetEndpointsRequest GET_ENDPOINTS_REQUEST defaultHeader).TypeID =
        GET_ENDPOINTS_REQUEST ∧
      (GetEndpointsResponse.GetEndpointsResponse GET_ENDPOINTS_RESPONSE
        defaultHeader2).TypeID = GET_ENDPOINTS_RESPONSE) ∧
    (tid.Serialize m.TypeID <+: Serialize_GetEndpointsRequest tid hdr m ∧
      tid.Serialize r.TypeID <+: Serialize_GetEndpointsResponse tid hdr2 levelWidth r ∧
      RawSize_GetEndpointsRequest tid hdr m =
        tid.RawSize m.TypeID + hdr.RawSize m.Header + RawSize_EndpointsFilter m.Filter ∧
      RawSize_GetEndpointsResponse tid hdr2 levelWidth r =
        tid.RawSize r.TypeID + hdr2.RawSize r.Header +
          RawSize_vector_EndpointDescription levelWidth r.Endpoints) ∧
    (Serialize_GetEndpointsRequest tid hdr
        (GetEndpointsRequest.GetEndpointsRequest GET_ENDPOINTS_REQUEST defaultHeader) =
        tid.Serialize GET_ENDPOINTS_REQUEST ++ (hdr.Serialize defaultHeader ++
          Serialize_EndpointsFilter ⟨[], [], []⟩) ∧
      Serialize_GetEndpointsResponse tid hdr2 levelWidth
        (GetEndpointsResponse.GetEndpointsResponse GET_ENDPOINTS_RESPONSE defaultHeader2) =
        tid.Serialize GET_ENDPOINTS_RESPONSE ++ (hdr2.Serialize defaultHeader2 ++
          Serialize_vector_EndpointDescription levelWidth [])) := by
  refine ⟨⟨rfl, rfl⟩, ⟨?_, ?_, rfl, rfl⟩, ⟨?_, ?_⟩⟩
  · unfold Serialize_GetEndpointsRequest
    rw [List.append_assoc]
    exact List.prefix_append _ _
  · unfold Serialize_GetEndpointsResponse
    rw [List.append_assoc]
    exact List.prefix_append _ _
  · simp only [Serialize_GetEndpointsRequest, GetEndpointsRequest.GetEndpointsRequest,
      List.append_assoc]
  · simp only [Serialize_GetEndpointsResponse, GetEndpointsResponse.GetEndpointsResponse,
      List.append_assoc]

/-- C18. Message decode overwrites and does not validate the discriminant: for every
discriminant value `t` (GET_ENDPOINTS_RESPONSE included), deserializing into a freshly
constructed GetEndpointsRequest from the encoding of `t`, then a header, then an
encodable EndpointsFilter succeeds and leaves the TypeID of the message equal to `t`,
whatever GET_ENDPOINTS_REQUEST is; symmetrically for GetEndpointsResponse.  The
codecs of discriminant and header are assumed to round-trip on `t` and on the header. -/
theorem C18_decode_overwrites_discriminant {T H H2 : Type} (tid : Codec T)
    (hdr : Codec H) (hdr2 : Codec H2) (levelWidth : Nat)
    (GET_ENDPOINTS_REQUEST GET_ENDPOINTS_RESPONSE t : T)
    (defaultHeader header : H) (defaultHeader2 header2 : H2)
    (filter : EndpointsFilter) (endpoints : List EndpointDescription)
    (rest : List Byte)
    (hT : ∀ bs, tid.Deserialize (tid.Serialize t ++ bs) = .ok (t, bs))
    (hH : ∀ bs, hdr.Deserialize (hdr.Serialize header ++ bs) = .ok (header, bs))
    (hH2 : ∀ bs, hdr2.Deserialize (hdr2.Serialize header2 ++ bs) = .ok (header2, bs))
    (hF : filter.Valid) (hlen : endpoints.length < 2 ^ 32)
    (hE : ∀ d ∈ endpoints, d.Valid levelWidth) :
    Deserialize_GetEndpointsRequest_into tid hdr
      (GetEndpointsRequest.GetEndpointsRequest GET_ENDPOINTS_REQUEST defaultHeader)
      (tid.Serialize t ++ (hdr.Serialize header ++
        (Serialize_EndpointsFilter filter ++ rest))) =
          .ok ({ TypeID := t, Header := header, Filter := filter }, rest) ∧
    Deserialize_GetEndpointsResponse_into tid hdr2 levelWidth
      (GetEndpointsResponse.GetEndpointsResponse GET_ENDPOINTS_RESPONSE defaultHeader2)
      (tid.Serialize t ++ (hdr2.Serialize header2 ++
        (Serialize_vector_EndpointDescription levelWidth endpoints ++ rest))) =
          .ok ({ TypeID := t, Header := header2, Endpoints := endpoints }, rest) := by
  constructor
  · have h := Deserialize_GetEndpointsRequest_Serialize tid hdr ⟨t, header, filter⟩
      hT hH hF rest
    rw [Deserialize_GetEndpointsRequest_into_eq]
    simpa only [Serialize_GetEndpointsRequest, List.append_assoc] using h
  · have h := Deserialize_GetEndpointsResponse_Serialize tid hdr2 levelWidth
      ⟨t, header2, endpoints⟩ hT hH2 hlen hE rest
    rw [Deserialize_GetEndpointsResponse_into_eq]
    simpa only [Serialize_GetEndpointsResponse, List.append_assoc] using h

/-- C18 with the 4-byte integer codec for the discriminant: a fresh request (constant
428) decoded from bytes that carry the response constant 431 ends with TypeID 431, and
a fresh response (constant 431) decoded from bytes that carry 428 ends with TypeID 428. -/
theorem C18_decode_overwrites_discriminant_witness :
    (exampleFilter2.Valid ∧ [exampleEndpoint].length < 2 ^ 32 ∧
      ∀ d ∈ [exampleEndpoint], d.Valid 1) ∧
    Deserialize_GetEndpointsRequest_into uint32Codec stringCodec
      (GetEndpointsRequest.GetEndpointsRequest 428 [])
      (Serialize_uint32 431 ++ (Serialize_string (ofString "header") ++
        (Serialize_EndpointsFilter exampleFilter2 ++ []))) =
          .ok ({ TypeID := 431, Header := ofString "header", Filter := exampleFilter2 }, []) ∧
    Deserialize_GetEndpointsResponse_into uint32Codec stringCodec 1
      (GetEndpointsResponse.GetEndpointsResponse 431 [])
      (Serialize_uint32 428 ++ (Serialize_string (ofString "header") ++
        (Serialize_vector_EndpointDescription 1 [exampleEndpoint] ++ []))) =
          .ok ({ TypeID := 428, Header := ofString "header",
                 Endpoints := [exampleEndpoint] }, []) :=
  ⟨⟨by decide, by decide, by decide⟩,
   (C18_decode_overwrites_discriminant uint32Codec stringCodec stringCodec 1
    428 431 431 [] (ofString "header") [] (ofString "header") exampleFilter2
    [exampleEndpoint] []
    (fun bs => Deserialize_uint32_Serialize 431 (by decide) bs)
    (fun bs => Deserialize_string_Serialize (ofString "header") (by decide) bs)
    (fun bs => Deserialize_string_Serialize (ofString "header") (by decide) bs)
    (by decide) (by decide) (by decide)).1,
   (C18_decode_overwrites_discriminant uint32Codec stringCodec stringCodec 1
    428 431 428 [] (ofString "header") [] (ofString "header") exampleFilter2
    [exampleEndpoint] []
    (fun bs => Deserialize_uint32_Serialize 428 (by decide) bs)
    (fun bs => Deserialize_string_Serialize (ofString "header") (by decide) bs)
    (fun bs => Deserialize_string_Serialize (ofString "header") (by decide) bs)
    (by decide) (by decide) (by decide)).2⟩

/-- C20. The EndpointDescription encoding is prefix-free and injective: for all
well-formed EndpointDescription values `a` and `b` (string, blob and sequence lengths
below 2^32, integer fields within their C++ types), if the bytes written by
Serialize(a) are a prefix of the bytes written by Serialize(b), then `a = b`; hence
consecutive records are unambiguously delimited without separators: two sequences of
well-formed records whose concatenated encodings are equal are the same sequence, and
so are two sequences with equal array encodings. -/
theorem C20_EndpointDescription_prefix_free (levelWidth : Nat)
    (a b : EndpointDescription) (s t : List EndpointDescription)
    (ha : a.Valid levelWidth) (hb : b.Valid levelWidth)
    (hs : ∀ d ∈ s, d.Valid levelWidth) (ht : ∀ d ∈ t, d.Valid levelWidth) :
    (Serialize_EndpointDescription levelWidth a <+:
        Serialize_EndpointDescription levelWidth b → a = b) ∧
    (Serialize_EndpointDescription levelWidth a =
        Serialize_EndpointDescription levelWidth b → a = b) ∧
    ((s.map (Serialize_EndpointDescription levelWidth)).flatten =
        (t.map (Serialize_EndpointDescription levelWidth)).flatten → s = t) ∧
    (s.length < 2 ^ 32 → t.length < 2 ^ 32 →
      Serialize_vector_EndpointDescription levelWidth s =
        Serialize_vector_EndpointDescription levelWidth t → s = t) := by
  refine ⟨Serialize_EndpointDescription_prefix_free levelWidth a b ha hb, ?_,
    flatten_Serialize_EndpointDescription_injective levelWidth s t hs ht, ?_⟩
  · intro h
    exact Serialize_EndpointDescription_prefix_free levelWidth a b ha hb
      (h ▸ List.prefix_refl _)
  · intro hls hlt h
    have h1 := Deserialize_vector_EndpointDescription_Serialize levelWidth s hls hs []
    have h2 := Deserialize_vector_EndpointDescription_Serialize levelWidth t hlt ht []
    rw [h, h2] at h1
    cases h1
    rfl

/-- C20 at the two example endpoint descriptions: both are well-formed, they differ,
and neither encoding is a prefix of the other. -/
theorem C20_EndpointDescription_prefix_free_witness :
    (exampleEndpoint.Valid 1 ∧ exampleEndpoint2.Valid 1) ∧
    exampleEndpoint ≠ exampleEndpoint2 ∧
    ¬ (Serialize_EndpointDescription 1 exampleEndpoint <+:
        Serialize_EndpointDescription 1 exampleEndpoint2) ∧
    ¬ (Serialize_EndpointDescription 1 exampleEndpoint2 <+:
        Serialize_EndpointDescription 1 exampleEndpoint) :=
  have hne : exampleEndpoint ≠ exampleEndpoint2 := by decide
  ⟨⟨by decide, by decide⟩, hne,
   fun h => hne ((C20_EndpointDescription_prefix_free 1 exampleEndpoint exampleEndpoint2
      [] [] (by decide) (by decide) (by decide) (by decide)).1 h),
   fun h => hne ((C20_EndpointDescription_prefix_free 1 exampleEndpoint2 exampleEndpoint
      [] [] (by decide) (by decide) (by decide) (by decide)).1 h).symm⟩

end Binary
end OpcUa
